import Mathlib

set_option maxRecDepth 8000
set_option maxHeartbeats 1000000

/-!
Verification of the Zengin fixed-width converter (`app/utils/zengin.py`).

Strings handled by the converter are modelled as lists of `JChar`, the
characters of the Shift-JIS encoding: a `JChar.single b` encodes to the one
byte `b` (ASCII or half-width katakana), a `JChar.double b1 b2` encodes to the
two bytes `b1 b2` (full-width characters).  `encodeStr` is `str.encode`
(`errors="replace"` never fires because every well-formed `JChar` is
encodable), `decodeBytes` is `bytes.decode` returning `none` on a
`UnicodeDecodeError`.
-/

deriving instance DecidableEq for Except

namespace Zengin

/-- Byte values that stand alone in Shift-JIS: ASCII plus half-width katakana. -/
def IsSingleByte (b : Nat) : Prop := b < 0x80 ∨ (0xA1 ≤ b ∧ b ≤ 0xDF)

/-- Lead bytes of two-byte Shift-JIS sequences. -/
def IsLeadByte (b : Nat) : Prop := (0x81 ≤ b ∧ b ≤ 0x9F) ∨ (0xE0 ≤ b ∧ b ≤ 0xEF)

/-- Trail bytes of two-byte Shift-JIS sequences. -/
def IsTrailByte (b : Nat) : Prop := 0x40 ≤ b ∧ b ≤ 0xFC ∧ b ≠ 0x7F

instance (b : Nat) : Decidable (IsSingleByte b) :=
  inferInstanceAs (Decidable (_ ∨ _))

instance (b : Nat) : Decidable (IsLeadByte b) :=
  inferInstanceAs (Decidable (_ ∨ _))

instance (b : Nat) : Decidable (IsTrailByte b) :=
  inferInstanceAs (Decidable (_ ∧ _))

/-- One character of a Python string, as seen through the Shift-JIS encoding. -/
inductive JChar where
  | single (b : Nat)
  | double (b1 b2 : Nat)
deriving DecidableEq

/-- The Shift-JIS bytes of a character. -/
def JChar.encode : JChar → List Nat
  | .single b => [b]
  | .double b1 b2 => [b1, b2]

/-- A character is well formed when its bytes are in the ranges the Shift-JIS
decoder accepts; every character produced by encoding a Python string with
`errors="replace"` is well formed. -/
def WFChar : JChar → Prop
  | .single b => IsSingleByte b
  | .double b1 b2 => IsLeadByte b1 ∧ IsTrailByte b2

instance : (c : JChar) → Decidable (WFChar c)
  | .single b => inferInstanceAs (Decidable (IsSingleByte b))
  | .double _ _ => inferInstanceAs (Decidable (_ ∧ _))

/-- All characters of a string are well formed. -/
def WFStr (s : List JChar) : Prop := ∀ c ∈ s, WFChar c

instance (s : List JChar) : Decidable (WFStr s) :=
  inferInstanceAs (Decidable (∀ c ∈ s, WFChar c))

/-- `str.encode("shift_jis")`. -/
def encodeStr (s : List JChar) : List Nat := s.flatMap JChar.encode

/-- `bytes.decode("shift_jis")`; `none` models a `UnicodeDecodeError`. -/
def decodeBytes : List Nat → Option (List JChar)
  | [] => some []
  | b :: bs =>
    if IsSingleByte b then
      (decodeBytes bs).map (fun r => JChar.single b :: r)
    else if IsLeadByte b then
      match bs with
      | [] => none
      | b2 :: rest =>
        if IsTrailByte b2 then
          (decodeBytes rest).map (fun r => JChar.double b b2 :: r)
        else none
    else none

theorem encodeStr_nil : encodeStr [] = [] := rfl

theorem encodeStr_cons (c : JChar) (s : List JChar) :
    encodeStr (c :: s) = c.encode ++ encodeStr s := rfl

theorem encodeStr_append (s t : List JChar) :
    encodeStr (s ++ t) = encodeStr s ++ encodeStr t := by
  simp [encodeStr]

theorem not_single_of_lead {b : Nat} (h : IsLeadByte b) : ¬ IsSingleByte b := by
  rcases h with h | h <;> rintro (h' | h') <;> omega

theorem decodeBytes_nil : decodeBytes [] = some [] := rfl

theorem decodeBytes_single {b : Nat} (hb : IsSingleByte b) (bs : List Nat) :
    decodeBytes (b :: bs) = (decodeBytes bs).map (fun r => JChar.single b :: r) := by
  conv_lhs => unfold decodeBytes
  rw [if_pos hb]

theorem decodeBytes_double {b1 b2 : Nat} (h1 : IsLeadByte b1) (h2 : IsTrailByte b2)
    (bs : List Nat) :
    decodeBytes (b1 :: b2 :: bs) = (decodeBytes bs).map (fun r => JChar.double b1 b2 :: r) := by
  conv_lhs => unfold decodeBytes
  rw [if_neg (not_single_of_lead h1)]
  rw [if_pos h1]
  dsimp only
  rw [if_pos h2]

/-- Decoding a valid encoding followed by anything peels off the valid part. -/
theorem decode_encode_append (s : List JChar) (hs : WFStr s) (t : List Nat) :
    decodeBytes (encodeStr s ++ t) = (decodeBytes t).map (fun r => s ++ r) := by
  induction s with
  | nil =>
    simp [encodeStr]
  | cons c rest ih =>
    have hc : WFChar c := hs c (List.mem_cons_self ..)
    have hrest : WFStr rest := fun d hd => hs d (List.mem_cons_of_mem _ hd)
    cases c with
    | single b =>
      have hb : IsSingleByte b := hc
      simp only [encodeStr_cons, JChar.encode, List.cons_append, List.nil_append,
        List.append_assoc]
      rw [decodeBytes_single hb, ih hrest, Option.map_map]
      rfl
    | double b1 b2 =>
      have hb1 : IsLeadByte b1 := hc.1
      have hb2 : IsTrailByte b2 := hc.2
      simp only [encodeStr_cons, JChar.encode, List.cons_append, List.nil_append,
        List.append_assoc]
      rw [decodeBytes_double hb1 hb2, ih hrest, Option.map_map]
      rfl

/-- Round trip: decoding an encoding recovers the string. -/
theorem decode_encode (s : List JChar) (hs : WFStr s) :
    decodeBytes (encodeStr s) = some s := by
  have h := decode_encode_append s hs []
  simpa [decodeBytes] using h

/-- Re-encoding a successful decode recovers the bytes. -/
theorem encode_decode : ∀ (bs : List Nat) (s : List JChar),
    decodeBytes bs = some s → encodeStr s = bs
  | [], s, h => by
    have hs : s = [] := by simpa [decodeBytes] using h.symm
    subst hs; rfl
  | b :: bs, s, h => by
    unfold decodeBytes at h
    by_cases hb : IsSingleByte b
    · rw [if_pos hb] at h
      cases hd : decodeBytes bs with
      | none => rw [hd] at h; simp at h
      | some r =>
        rw [hd] at h
        simp at h
        have := encode_decode bs r hd
        simp [← h, encodeStr_cons, JChar.encode, this]
    · rw [if_neg hb] at h
      by_cases hl : IsLeadByte b
      · rw [if_pos hl] at h
        cases bs with
        | nil => simp at h
        | cons b2 rest =>
          dsimp only at h
          by_cases ht : IsTrailByte b2
          · rw [if_pos ht] at h
            cases hd : decodeBytes rest with
            | none => rw [hd] at h; simp at h
            | some r =>
              rw [hd] at h
              simp at h
              have := encode_decode rest r hd
              simp [← h, encodeStr_cons, JChar.encode, this]
          · rw [if_neg ht] at h; simp at h
      · rw [if_neg hl] at h; simp at h

/-- A successful decode only produces well-formed characters. -/
theorem decode_wf : ∀ (bs : List Nat) (s : List JChar),
    decodeBytes bs = some s → WFStr s
  | [], s, h => by
    have hs : s = [] := by simpa [decodeBytes] using h.symm
    subst hs
    intro c hc
    simp at hc
  | b :: bs, s, h => by
    unfold decodeBytes at h
    by_cases hb : IsSingleByte b
    · rw [if_pos hb] at h
      cases hd : decodeBytes bs with
      | none => rw [hd] at h; simp at h
      | some r =>
        rw [hd] at h
        simp at h
        have hr := decode_wf bs r hd
        intro c hc
        rw [← h] at hc
        rcases List.mem_cons.1 hc with rfl | hc
        · exact hb
        · exact hr c hc
    · rw [if_neg hb] at h
      by_cases hl : IsLeadByte b
      · rw [if_pos hl] at h
        cases bs with
        | nil => simp at h
        | cons b2 rest =>
          dsimp only at h
          by_cases ht : IsTrailByte b2
          · rw [if_pos ht] at h
            cases hd : decodeBytes rest with
            | none => rw [hd] at h; simp at h
            | some r =>
              rw [hd] at h
              simp at h
              have hr := decode_wf rest r hd
              intro c hc
              rw [← h] at hc
              rcases List.mem_cons.1 hc with rfl | hc
              · exact ⟨hl, ht⟩
              · exact hr c hc
          · rw [if_neg ht] at h; simp at h
      · rw [if_neg hl] at h; simp at h


theorem encodeStr_length_le (s : List JChar) : s.length ≤ (encodeStr s).length := by
  induction s with
  | nil => simp [encodeStr]
  | cons c rest ih =>
    rw [encodeStr_cons, List.length_append, List.length_cons]
    cases c <;> simp [JChar.encode] <;> omega

theorem take_encodeStr_append (s t : List JChar) :
    (encodeStr (s ++ t)).take (encodeStr s).length = encodeStr s := by
  rw [encodeStr_append, List.take_left]

/-- Any byte count `n` inside an encoded string is at most one byte past a
character boundary: some prefix of the string encodes to exactly `n` or
exactly `n - 1` bytes. -/
theorem encode_prefix_dichotomy :
    ∀ (s : List JChar) (n : Nat), n ≤ (encodeStr s).length →
      (∃ s1 s2, s = s1 ++ s2 ∧ (encodeStr s1).length = n) ∨
      (∃ s1 s2, s = s1 ++ s2 ∧ (encodeStr s1).length + 1 = n)
  | [], n, hn => by
    left
    refine ⟨[], [], rfl, ?_⟩
    simp [encodeStr] at hn ⊢
    omega
  | c :: rest, n, hn => by
    by_cases h0 : n = 0
    · left; exact ⟨[], c :: rest, rfl, by simp [encodeStr, h0]⟩
    · have hw : (JChar.encode c).length ≤ 2 := by cases c <;> simp [JChar.encode]
      have hw1 : 1 ≤ (JChar.encode c).length := by cases c <;> simp [JChar.encode]
      by_cases hn2 : (JChar.encode c).length ≤ n
      · have hle : n - (JChar.encode c).length ≤ (encodeStr rest).length := by
          rw [encodeStr_cons, List.length_append] at hn
          omega
        rcases encode_prefix_dichotomy rest (n - (JChar.encode c).length) hle with
          ⟨s1, s2, hsplit, hlen⟩ | ⟨s1, s2, hsplit, hlen⟩
        · left
          refine ⟨c :: s1, s2, by rw [hsplit, List.cons_append], ?_⟩
          rw [encodeStr_cons, List.length_append, hlen]
          omega
        · right
          refine ⟨c :: s1, s2, by rw [hsplit, List.cons_append], ?_⟩
          rw [encodeStr_cons, List.length_append]
          omega
      · -- 0 < n < byte width of c, so c is two bytes and n = 1
        right
        refine ⟨[], c :: rest, rfl, ?_⟩
        simp [encodeStr] at *
        omega

/-- `buf[pos:pos+len(bytes)] = bytes`, Python's slice assignment on a
`bytearray`. -/
def splice (buf : List Nat) (pos : Nat) (bytes : List Nat) : List Nat :=
  buf.take pos ++ bytes ++ buf.drop (pos + bytes.length)

theorem splice_length (buf : List Nat) (pos : Nat) (bytes : List Nat)
    (h : pos + bytes.length ≤ buf.length) :
    (splice buf pos bytes).length = buf.length := by
  simp [splice]
  omega

/-- Splicing at the boundary between a finished prefix and a remainder of
fill bytes advances the prefix. -/
theorem splice_step (done : List Nat) (k pos : Nat) (xs : List Nat) (fill : Nat)
    (hpos : pos = done.length) :
    splice (done ++ List.replicate k fill) pos xs
      = (done ++ xs) ++ List.replicate (k - xs.length) fill := by
  subst hpos
  unfold splice
  rw [List.take_left, List.drop_append, List.drop_replicate, List.append_assoc]

/-! ### Python primitives used by the converter -/

/-- A loosely-typed spreadsheet cell: a string, a Python `int`, or NaN
(missing value).  Python floats other than NaN are outside the modelled
domain (the application feeds strings and integers). -/
inductive Value where
  | vInt (n : Int)
  | vStr (s : List JChar)
  | vNan
deriving DecidableEq

/-- A JChar for an ASCII code point. -/
def asciiStr (s : String) : List JChar := s.data.map (fun c => JChar.single c.toNat)

/-- Decimal digits, most significant first, by fuel-bounded recursion (the
fuel `n + 1` always suffices since `n / 10 < n`). -/
def natDigitsAux : Nat → Nat → List Nat
  | 0, _ => []
  | fuel + 1, n => if n < 10 then [n] else natDigitsAux fuel (n / 10) ++ [n % 10]

/-- Decimal digits of a natural number, most significant first (`str(n)`). -/
def natToDigitList (n : Nat) : List Nat := natDigitsAux (n + 1) n

/-- `str(n)` for a Python non-negative int. -/
def pyStrOfNat (n : Nat) : List JChar :=
  (natToDigitList n).map (fun d => JChar.single (0x30 + d))

/-- `str(n)` for a Python int. -/
def pyStrOfInt (n : Int) : List JChar :=
  if n < 0 then JChar.single 0x2D :: pyStrOfNat n.natAbs else pyStrOfNat n.toNat

/-- `str(value)`; `str(float("nan"))` is `"nan"`. -/
def pyStr : Value → List JChar
  | .vInt n => pyStrOfInt n
  | .vStr s => s
  | .vNan => asciiStr "nan"

/-- Characters removed by `str.strip()`: ASCII whitespace and the full-width
space (U+3000, Shift-JIS 0x8140). -/
def isPySpace (c : JChar) : Bool :=
  match c with
  | .single b => decide (b = 0x20 ∨ b = 0x09 ∨ b = 0x0A ∨ b = 0x0B ∨ b = 0x0C ∨ b = 0x0D)
  | .double b1 b2 => decide (b1 = 0x81 ∧ b2 = 0x40)

/-- `str.strip()`. -/
def pyStrip (s : List JChar) : List JChar :=
  ((s.dropWhile isPySpace).reverse.dropWhile isPySpace).reverse

/-- The numeric value of a decimal digit character: ASCII `0`-`9` or the
full-width digits `0x824F`-`0x8258`. -/
def jDigitVal : JChar → Option Nat
  | .single b => if 0x30 ≤ b ∧ b ≤ 0x39 then some (b - 0x30) else none
  | .double b1 b2 => if b1 = 0x82 ∧ 0x4F ≤ b2 ∧ b2 ≤ 0x58 then some (b2 - 0x4F) else none

/-- `str.isdigit()` (restricted to the decimal digit characters above). -/
def pyIsDigit (s : List JChar) : Bool :=
  !s.isEmpty && s.all (fun c => (jDigitVal c).isSome)

/-- `str.replace(",", "")`. -/
def removeCommas (s : List JChar) : List JChar :=
  s.filter (fun c => c != JChar.single 0x2C)

/-- `str.lower()` (restricted to ASCII letters, the only case the converter
compares against). -/
def pyLower (s : List JChar) : List JChar :=
  s.map (fun c =>
    match c with
    | .single b => if 0x41 ≤ b ∧ b ≤ 0x5A then JChar.single (b + 0x20) else c
    | d => d)

/-- The value of a digit string, most significant first. -/
def digitsToNat (s : List JChar) : Nat :=
  s.foldl (fun acc c => 10 * acc + ((jDigitVal c).getD 0)) 0

/-- `int(float(s))` — truncation towards zero of a decimal numeral.
Modelled for strings of an optional ASCII sign, decimal digits and at most
one decimal point, with at most 15 digits in total (within this domain the
double rounding of CPython's `float` cannot cross an integer boundary, so
`int(float(s))` is exactly the truncated decimal value).  Exponents,
infinities, underscores and longer numerals are outside the modelled domain.
`none` models `ValueError`. -/
def pyIntFloat (s : List JChar) : Option Int :=
  let signSplit : Bool × List JChar :=
    match s with
    | JChar.single 0x2D :: r => (true, r)
    | JChar.single 0x2B :: r => (false, r)
    | r => (false, r)
  let neg := signSplit.1
  let body := signSplit.2
  let intPart := body.takeWhile (fun c => (jDigitVal c).isSome)
  let rest := body.drop intPart.length
  let mkVal : Option Int :=
    if neg then some (-(digitsToNat intPart : Int)) else some (digitsToNat intPart)
  match rest with
  | [] =>
    if intPart.isEmpty then none
    else if intPart.length ≤ 15 then mkVal else none
  | JChar.single 0x2E :: fracChars =>
    let frac := fracChars.takeWhile (fun c => (jDigitVal c).isSome)
    if frac.length ≠ fracChars.length then none
    else if intPart.isEmpty ∧ frac.isEmpty then none
    else if intPart.length + frac.length ≤ 15 then mkVal else none
  | _ => none

/-- `ord(s)` followed by a byte-array cell assignment: defined exactly for a
one-character string whose code point fits in a byte (for a single-byte
`JChar` that is an ASCII byte; half-width katakana and all double-byte
characters have code points above 0xFF and raise).  `none` models the
`TypeError`/`ValueError`. -/
def pyOrdByte : List JChar → Option Nat
  | [JChar.single b] => if b < 0x80 then some b else none
  | _ => none


/-! ### The kana table and the converter's string constants -/

/-- `ZENKAKU_TO_HANKAKU`, the full-width to half-width conversion table of
the source, with each Python character given by its Shift-JIS bytes (keys are
full-width two-byte characters, values half-width one-byte strings). -/
def ZENKAKU_TO_HANKAKU : List (JChar × List JChar) := [
    (JChar.double 0x83 0x41, [JChar.single 0xB1]),
    (JChar.double 0x83 0x43, [JChar.single 0xB2]),
    (JChar.double 0x83 0x45, [JChar.single 0xB3]),
    (JChar.double 0x83 0x47, [JChar.single 0xB4]),
    (JChar.double 0x83 0x49, [JChar.single 0xB5]),
    (JChar.double 0x83 0x4A, [JChar.single 0xB6]),
    (JChar.double 0x83 0x4C, [JChar.single 0xB7]),
    (JChar.double 0x83 0x4E, [JChar.single 0xB8]),
    (JChar.double 0x83 0x50, [JChar.single 0xB9]),
    (JChar.double 0x83 0x52, [JChar.single 0xBA]),
    (JChar.double 0x83 0x54, [JChar.single 0xBB]),
    (JChar.double 0x83 0x56, [JChar.single 0xBC]),
    (JChar.double 0x83 0x58, [JChar.single 0xBD]),
    (JChar.double 0x83 0x5A, [JChar.single 0xBE]),
    (JChar.double 0x83 0x5C, [JChar.single 0xBF]),
    (JChar.double 0x83 0x5E, [JChar.single 0xC0]),
    (JChar.double 0x83 0x60, [JChar.single 0xC1]),
    (JChar.double 0x83 0x63, [JChar.single 0xC2]),
    (JChar.double 0x83 0x65, [JChar.single 0xC3]),
    (JChar.double 0x83 0x67, [JChar.single 0xC4]),
    (JChar.double 0x83 0x69, [JChar.single 0xC5]),
    (JChar.double 0x83 0x6A, [JChar.single 0xC6]),
    (JChar.double 0x83 0x6B, [JChar.single 0xC7]),
    (JChar.double 0x83 0x6C, [JChar.single 0xC8]),
    (JChar.double 0x83 0x6D, [JChar.single 0xC9]),
    (JChar.double 0x83 0x6E, [JChar.single 0xCA]),
    (JChar.double 0x83 0x71, [JChar.single 0xCB]),
    (JChar.double 0x83 0x74, [JChar.single 0xCC]),
    (JChar.double 0x83 0x77, [JChar.single 0xCD]),
    (JChar.double 0x83 0x7A, [JChar.single 0xCE]),
    (JChar.double 0x83 0x7D, [JChar.single 0xCF]),
    (JChar.double 0x83 0x7E, [JChar.single 0xD0]),
    (JChar.double 0x83 0x80, [JChar.single 0xD1]),
    (JChar.double 0x83 0x81, [JChar.single 0xD2]),
    (JChar.double 0x83 0x82, [JChar.single 0xD3]),
    (JChar.double 0x83 0x84, [JChar.single 0xD4]),
    (JChar.double 0x83 0x86, [JChar.single 0xD5]),
    (JChar.double 0x83 0x88, [JChar.single 0xD6]),
    (JChar.double 0x83 0x89, [JChar.single 0xD7]),
    (JChar.double 0x83 0x8A, [JChar.single 0xD8]),
    (JChar.double 0x83 0x8B, [JChar.single 0xD9]),
    (JChar.double 0x83 0x8C, [JChar.single 0xDA]),
    (JChar.double 0x83 0x8D, [JChar.single 0xDB]),
    (JChar.double 0x83 0x8F, [JChar.single 0xDC]),
    (JChar.double 0x83 0x92, [JChar.single 0xA6]),
    (JChar.double 0x83 0x93, [JChar.single 0xDD]),
    (JChar.double 0x83 0x4B, [JChar.single 0xB6, JChar.single 0xDE]),
    (JChar.double 0x83 0x4D, [JChar.single 0xB7, JChar.single 0xDE]),
    (JChar.double 0x83 0x4F, [JChar.single 0xB8, JChar.single 0xDE]),
    (JChar.double 0x83 0x51, [JChar.single 0xB9, JChar.single 0xDE]),
    (JChar.double 0x83 0x53, [JChar.single 0xBA, JChar.single 0xDE]),
    (JChar.double 0x83 0x55, [JChar.single 0xBB, JChar.single 0xDE]),
    (JChar.double 0x83 0x57, [JChar.single 0xBC, JChar.single 0xDE]),
    (JChar.double 0x83 0x59, [JChar.single 0xBD, JChar.single 0xDE]),
    (JChar.double 0x83 0x5B, [JChar.single 0xBE, JChar.single 0xDE]),
    (JChar.double 0x83 0x5D, [JChar.single 0xBF, JChar.single 0xDE]),
    (JChar.double 0x83 0x5F, [JChar.single 0xC0, JChar.single 0xDE]),
    (JChar.double 0x83 0x61, [JChar.single 0xC1, JChar.single 0xDE]),
    (JChar.double 0x83 0x64, [JChar.single 0xC2, JChar.single 0xDE]),
    (JChar.double 0x83 0x66, [JChar.single 0xC3, JChar.single 0xDE]),
    (JChar.double 0x83 0x68, [JChar.single 0xC4, JChar.single 0xDE]),
    (JChar.double 0x83 0x6F, [JChar.single 0xCA, JChar.single 0xDE]),
    (JChar.double 0x83 0x72, [JChar.single 0xCB, JChar.single 0xDE]),
    (JChar.double 0x83 0x75, [JChar.single 0xCC, JChar.single 0xDE]),
    (JChar.double 0x83 0x78, [JChar.single 0xCD, JChar.single 0xDE]),
    (JChar.double 0x83 0x7B, [JChar.single 0xCE, JChar.single 0xDE]),
    (JChar.double 0x83 0x70, [JChar.single 0xCA, JChar.single 0xDF]),
    (JChar.double 0x83 0x73, [JChar.single 0xCB, JChar.single 0xDF]),
    (JChar.double 0x83 0x76, [JChar.single 0xCC, JChar.single 0xDF]),
    (JChar.double 0x83 0x79, [JChar.single 0xCD, JChar.single 0xDF]),
    (JChar.double 0x83 0x7C, [JChar.single 0xCE, JChar.single 0xDF]),
    (JChar.double 0x83 0x40, [JChar.single 0xA7]),
    (JChar.double 0x83 0x42, [JChar.single 0xA8]),
    (JChar.double 0x83 0x44, [JChar.single 0xA9]),
    (JChar.double 0x83 0x46, [JChar.single 0xAA]),
    (JChar.double 0x83 0x48, [JChar.single 0xAB]),
    (JChar.double 0x83 0x83, [JChar.single 0xAC]),
    (JChar.double 0x83 0x85, [JChar.single 0xAD]),
    (JChar.double 0x83 0x87, [JChar.single 0xAE]),
    (JChar.double 0x83 0x62, [JChar.single 0xAF]),
    (JChar.double 0x81 0x5B, [JChar.single 0xB0]),
    (JChar.double 0x81 0x41, [JChar.single 0xA4]),
    (JChar.double 0x81 0x42, [JChar.single 0xA1]),
    (JChar.double 0x81 0x45, [JChar.single 0xA5]),
    (JChar.double 0x81 0x75, [JChar.single 0xA2]),
    (JChar.double 0x81 0x76, [JChar.single 0xA3]),
    (JChar.double 0x81 0x40, [JChar.single 0x20])
  ]

/-- `_to_hankaku_kana`: map each character through `ZENKAKU_TO_HANKAKU`,
keeping unmapped characters unchanged. -/
def _to_hankaku_kana (text : List JChar) : List JChar :=
  text.flatMap (fun c =>
    match ZENKAKU_TO_HANKAKU.lookup c with
    | some r => r
    | none => [c])

/-- The same table over Lean characters, copied verbatim from the source
(used to state the normalizer claims over plain text). -/
def ZENKAKU_TO_HANKAKU_CHARS : List (Char × String) := [
    ('ア', "ｱ"),
    ('イ', "ｲ"),
    ('ウ', "ｳ"),
    ('エ', "ｴ"),
    ('オ', "ｵ"),
    ('カ', "ｶ"),
    ('キ', "ｷ"),
    ('ク', "ｸ"),
    ('ケ', "ｹ"),
    ('コ', "ｺ"),
    ('サ', "ｻ"),
    ('シ', "ｼ"),
    ('ス', "ｽ"),
    ('セ', "ｾ"),
    ('ソ', "ｿ"),
    ('タ', "ﾀ"),
    ('チ', "ﾁ"),
    ('ツ', "ﾂ"),
    ('テ', "ﾃ"),
    ('ト', "ﾄ"),
    ('ナ', "ﾅ"),
    ('ニ', "ﾆ"),
    ('ヌ', "ﾇ"),
    ('ネ', "ﾈ"),
    ('ノ', "ﾉ"),
    ('ハ', "ﾊ"),
    ('ヒ', "ﾋ"),
    ('フ', "ﾌ"),
    ('ヘ', "ﾍ"),
    ('ホ', "ﾎ"),
    ('マ', "ﾏ"),
    ('ミ', "ﾐ"),
    ('ム', "ﾑ"),
    ('メ', "ﾒ"),
    ('モ', "ﾓ"),
    ('ヤ', "ﾔ"),
    ('ユ', "ﾕ"),
    ('ヨ', "ﾖ"),
    ('ラ', "ﾗ"),
    ('リ', "ﾘ"),
    ('ル', "ﾙ"),
    ('レ', "ﾚ"),
    ('ロ', "ﾛ"),
    ('ワ', "ﾜ"),
    ('ヲ', "ｦ"),
    ('ン', "ﾝ"),
    ('ガ', "ｶﾞ"),
    ('ギ', "ｷﾞ"),
    ('グ', "ｸﾞ"),
    ('ゲ', "ｹﾞ"),
    ('ゴ', "ｺﾞ"),
    ('ザ', "ｻﾞ"),
    ('ジ', "ｼﾞ"),
    ('ズ', "ｽﾞ"),
    ('ゼ', "ｾﾞ"),
    ('ゾ', "ｿﾞ"),
    ('ダ', "ﾀﾞ"),
    ('ヂ', "ﾁﾞ"),
    ('ヅ', "ﾂﾞ"),
    ('デ', "ﾃﾞ"),
    ('ド', "ﾄﾞ"),
    ('バ', "ﾊﾞ"),
    ('ビ', "ﾋﾞ"),
    ('ブ', "ﾌﾞ"),
    ('ベ', "ﾍﾞ"),
    ('ボ', "ﾎﾞ"),
    ('パ', "ﾊﾟ"),
    ('ピ', "ﾋﾟ"),
    ('プ', "ﾌﾟ"),
    ('ペ', "ﾍﾟ"),
    ('ポ', "ﾎﾟ"),
    ('ァ', "ｧ"),
    ('ィ', "ｨ"),
    ('ゥ', "ｩ"),
    ('ェ', "ｪ"),
    ('ォ', "ｫ"),
    ('ャ', "ｬ"),
    ('ュ', "ｭ"),
    ('ョ', "ｮ"),
    ('ッ', "ｯ"),
    ('ー', "ｰ"),
    ('、', "､"),
    ('。', "｡"),
    ('・', "･"),
    ('「', "｢"),
    ('」', "｣"),
    ('　', " ")
  ]

/-- `_to_hankaku_kana` over plain text. -/
def toHankakuKanaChars (text : String) : String :=
  String.mk (text.data.flatMap (fun c =>
    match ZENKAKU_TO_HANKAKU_CHARS.lookup c with
    | some r => r.data
    | none => [c]))

/-- The string `"普通"` (ordinary). -/
def strFutsu : List JChar := [JChar.double 0x95 0x81, JChar.double 0x92 0xCA]

/-- The string `"当座"` (current). -/
def strToza : List JChar := [JChar.double 0x93 0x96, JChar.double 0x8D 0xC0]

/-- The string `"貯蓄"` (savings). -/
def strChochiku : List JChar := [JChar.double 0x92 0x99, JChar.double 0x92 0x7E]

/-! ### `_pad_string`, the byte-exact field packer -/

/-- The space character. -/
def spaceJ : JChar := JChar.single 0x20

/-- The fill string `"0"`. -/
def strZero : List JChar := [JChar.single 0x30]

/-- The fill string `" "`. -/
def strSpace : List JChar := [spaceJ]

/-- The alignment argument `"right"`. -/
def strRight : List JChar := asciiStr "right"

/-- The alignment argument `"left"`. -/
def strLeft : List JChar := asciiStr "left"

/-- `_pad_string(value, length, fill_char, align)`: pad or truncate `value`
to exactly `length` bytes under Shift-JIS.  On truncation inside a
multi-byte character the source drops one byte at a time (up to two) until
the remainder decodes, and appends that many `" "` characters.  `none`
models an uncaught exception (`UnboundLocalError` when both retries fail,
or a `UnicodeDecodeError` of the final decode). -/
def _pad_string (value : List JChar) (length : Nat) (fill_char : List JChar)
    (align : List JChar) : Option (List JChar) :=
  let value_bytes := encodeStr value
  let fill_bytes := encodeStr fill_char
  let current_length := value_bytes.length
  if length < current_length then
    let truncated := value_bytes.take length
    match decodeBytes truncated with
    | some result => some result
    | none =>
      match decodeBytes (truncated.take (truncated.length - 1)) with
      | some result => some (result ++ [spaceJ])
      | none =>
        match decodeBytes (truncated.take (truncated.length - 2)) with
        | some result => some (result ++ [spaceJ, spaceJ])
        | none => none
  else
    let padding := (List.replicate (length - current_length) fill_bytes).flatten
    let result_bytes := if align = strRight then padding ++ value_bytes else value_bytes ++ padding
    decodeBytes result_bytes
/-- A fill string whose encoding is one byte is a lone single-byte character. -/
theorem fill_single (fill : List JChar) (hf : WFStr fill)
    (h1 : (encodeStr fill).length = 1) :
    ∃ b, fill = [JChar.single b] ∧ IsSingleByte b := by
  match fill with
  | [] => simp [encodeStr] at h1
  | [JChar.single b] =>
    refine ⟨b, rfl, ?_⟩
    have hb := hf (JChar.single b) (by simp)
    exact hb
  | [JChar.double b1 b2] => simp [encodeStr, JChar.encode] at h1
  | c :: d :: rest =>
    exfalso
    have h2 := encodeStr_length_le (c :: d :: rest)
    simp at h2
    omega

theorem encodeStr_replicate_single (k b : Nat) :
    encodeStr (List.replicate k (JChar.single b)) = List.replicate k b := by
  induction k with
  | zero => rfl
  | succ n ih => simp [List.replicate_succ, encodeStr_cons, JChar.encode, ih]

theorem flatten_replicate_singleton (k b : Nat) :
    (List.replicate k [b]).flatten = List.replicate k b := by
  induction k with
  | zero => rfl
  | succ n ih => simp [List.replicate_succ, ih]

/-- The truncation branch of `_pad_string` always succeeds on well-formed
input and returns exactly `length` encoded bytes: the cut point is at most
one byte past a character boundary, so the first retry always re-decodes. -/
theorem pad_string_truncate (value : List JChar) (length : Nat) (fill align : List JChar)
    (hv : WFStr value) (hlen : length < (encodeStr value).length) :
    ∃ r, _pad_string value length fill align = some r ∧ WFStr r ∧
      (encodeStr r).length = length ∧
      ((decodeBytes ((encodeStr value).take length) = some r) ∨
        (∃ r0, decodeBytes ((encodeStr value).take (length - 1)) = some r0 ∧
          r = r0 ++ [spaceJ])) := by
  have htr : ((encodeStr value).take length).length = length := by
    rw [List.length_take]
    omega
  have htake1 : List.take (length - 1) ((encodeStr value).take length)
      = (encodeStr value).take (length - 1) := by
    rw [List.take_take]
    congr 1
    omega
  unfold _pad_string
  rw [if_pos hlen]
  dsimp only
  rw [htr, htake1]
  cases hd : decodeBytes ((encodeStr value).take length) with
  | some r =>
    refine ⟨r, rfl, decode_wf _ _ hd, ?_, Or.inl rfl⟩
    have := encode_decode _ _ hd
    rw [this, htr]
  | none =>
    rcases encode_prefix_dichotomy value length (by omega) with
      ⟨s1, s2, hsplit, hlen1⟩ | ⟨s1, s2, hsplit, hlen1⟩
    · exfalso
      have hsome : decodeBytes ((encodeStr value).take length) = some s1 := by
        rw [hsplit, ← hlen1, take_encodeStr_append]
        exact decode_encode s1
          (fun c hc => hv c (by rw [hsplit]; exact List.mem_append_left _ hc))
      rw [hsome] at hd
      cases hd
    · have hdec : decodeBytes ((encodeStr value).take (length - 1)) = some s1 := by
        rw [hsplit, ← show (encodeStr s1).length = length - 1 by omega, take_encodeStr_append]
        exact decode_encode s1
          (fun c hc => hv c (by rw [hsplit]; exact List.mem_append_left _ hc))
      rw [hdec]
      refine ⟨s1 ++ [spaceJ], rfl, ?_, ?_, Or.inr ⟨s1, rfl, rfl⟩⟩
      · intro c hc
        rcases List.mem_append.1 hc with hc | hc
        · exact hv c (by rw [hsplit]; exact List.mem_append_left _ hc)
        · simp at hc
          subst hc
          exact Or.inl (by norm_num)
      · rw [encodeStr_append]
        simp only [List.length_append]
        have h1 : (encodeStr [spaceJ]).length = 1 := rfl
        have h2 := encode_decode _ _ hdec
        rw [h1, h2, List.length_take]
        omega

/-- The padding branch of `_pad_string` with a one-byte fill character
returns exactly `length` encoded bytes. -/
theorem pad_string_pad (value : List JChar) (length : Nat) (fill align : List JChar)
    (hv : WFStr value) (hf : WFStr fill) (hf1 : (encodeStr fill).length = 1)
    (hlen : ¬ length < (encodeStr value).length) :
    ∃ r, _pad_string value length fill align = some r ∧ WFStr r ∧
      (encodeStr r).length = length := by
  obtain ⟨b, hb, hbs⟩ := fill_single fill hf hf1
  subst hb
  have hwpad : WFStr (List.replicate (length - (encodeStr value).length) (JChar.single b)) := by
    intro c hc
    rw [List.eq_of_mem_replicate hc]
    exact hbs
  have hpad : (List.replicate (length - (encodeStr value).length)
        (encodeStr [JChar.single b])).flatten
      = encodeStr (List.replicate (length - (encodeStr value).length) (JChar.single b)) := by
    rw [encodeStr_replicate_single]
    have hb1 : encodeStr [JChar.single b] = [b] := rfl
    rw [hb1, flatten_replicate_singleton]
  unfold _pad_string
  rw [if_neg hlen]
  dsimp only
  rw [hpad]
  by_cases ha : align = strRight
  · rw [if_pos ha, ← encodeStr_append,
      decode_encode _ (fun c hc => (List.mem_append.1 hc).elim (hwpad c) (hv c))]
    refine ⟨_, rfl, fun c hc => (List.mem_append.1 hc).elim (hwpad c) (hv c), ?_⟩
    rw [encodeStr_append]
    simp only [List.length_append]
    rw [encodeStr_replicate_single, List.length_replicate]
    omega
  · rw [if_neg ha, ← encodeStr_append,
      decode_encode _ (fun c hc => (List.mem_append.1 hc).elim (hv c) (hwpad c))]
    refine ⟨_, rfl, fun c hc => (List.mem_append.1 hc).elim (hv c) (hwpad c), ?_⟩
    rw [encodeStr_append]
    simp only [List.length_append]
    rw [encodeStr_replicate_single, List.length_replicate]
    omega

/-- `_pad_string` with a well-formed value and a one-byte fill always
succeeds with exactly `length` encoded bytes of well-formed output. -/
theorem pad_string_ok (value : List JChar) (length : Nat) (fill align : List JChar)
    (hv : WFStr value) (hf : WFStr fill) (hf1 : (encodeStr fill).length = 1) :
    ∃ r, _pad_string value length fill align = some r ∧ WFStr r ∧
      (encodeStr r).length = length := by
  by_cases hlen : length < (encodeStr value).length
  · obtain ⟨r, h1, h2, h3, _⟩ := pad_string_truncate value length fill align hv hlen
    exact ⟨r, h1, h2, h3⟩
  · exact pad_string_pad value length fill align hv hf hf1 hlen

/-! ### Row data and validation -/

/-- One input row: the canonical field keys the converter reads.  `none`
models a key missing from the dictionary; `some .vNan` a present NaN cell. -/
structure Row where
  bank_code : Option Value := none
  bank_name : Option Value := none
  branch_code : Option Value := none
  branch_name : Option Value := none
  clearing_house : Option Value := none
  account_type : Option Value := none
  account_number : Option Value := none
  recipient_name : Option Value := none
  amount : Option Value := none
  new_code : Option Value := none
  customer_code1 : Option Value := none
  customer_code2 : Option Value := none
  transfer_type : Option Value := none
deriving DecidableEq

/-- Strings contained in a value are well formed. -/
def ValueWF : Value → Prop
  | .vStr s => WFStr s
  | _ => True

instance : (v : Value) → Decidable (ValueWF v)
  | .vStr s => inferInstanceAs (Decidable (WFStr s))
  | .vInt _ => inferInstanceAs (Decidable True)
  | .vNan => inferInstanceAs (Decidable True)

def OptValueWF : Option Value → Prop
  | some v => ValueWF v
  | none => True

instance : (v : Option Value) → Decidable (OptValueWF v)
  | some v => inferInstanceAs (Decidable (ValueWF v))
  | none => inferInstanceAs (Decidable True)

/-- All string cells of the row are well formed under Shift-JIS (true of
everything Python hands the converter, since cells are decoded text). -/
def Row.WF (r : Row) : Prop :=
  OptValueWF r.bank_code ∧ OptValueWF r.bank_name ∧ OptValueWF r.branch_code ∧
  OptValueWF r.branch_name ∧ OptValueWF r.clearing_house ∧ OptValueWF r.account_type ∧
  OptValueWF r.account_number ∧ OptValueWF r.recipient_name ∧ OptValueWF r.amount ∧
  OptValueWF r.new_code ∧ OptValueWF r.customer_code1 ∧ OptValueWF r.customer_code2 ∧
  OptValueWF r.transfer_type

instance (r : Row) : Decidable r.WF :=
  inferInstanceAs (Decidable (_ ∧ _))

/-- `field not in row or pd.isna(row[field])`. -/
def isNaLike : Option Value → Bool
  | none => true
  | some .vNan => true
  | some _ => false

/-- The validation error messages, one constructor per message string of the
source (`field` carries the `field_name` interpolated into the message). -/
inductive VError where
  | requiredMissing (field : String)
  | numericEmpty (field : String)
  | numericNotDigits (field : String)
  | numericTooManyDigits (field : String)
  | bankCodeOver4
  | branchCodeOver3
  | accountNumberOver7
  | accountTypeInvalid
  | amountNotPositive
  | amountInvalidFormat
  | recipientNameEmpty
  | recipientNameTooLong
deriving DecidableEq

/-- `_validate_numeric(value, field_name, max_digits)`. -/
def _validate_numeric (value : Value) (field_name : String) (max_digits : Option Nat) :
    Except VError (List JChar) :=
  if value = Value.vNan then .error (.numericEmpty field_name)
  else
    let str_value := pyStrip (pyStr value)
    if ¬ pyIsDigit str_value then .error (.numericNotDigits field_name)
    else
      match max_digits with
      | some m =>
        if m ≠ 0 ∧ m < str_value.length then .error (.numericTooManyDigits field_name)
        else .ok str_value
      | none => .ok str_value

/-- The required-field stanza of `validate_customer_data`. -/
def requiredErrors (row : Row) : List VError :=
  ([("bank_code", row.bank_code), ("branch_code", row.branch_code),
    ("account_number", row.account_number), ("recipient_name", row.recipient_name),
    ("amount", row.amount)] : List (String × Option Value)).filterMap
    (fun p => if isNaLike p.2 then some (VError.requiredMissing p.1) else none)

/-- The bank-code stanza. -/
def bankCodeErrors (row : Row) : List VError :=
  if isNaLike row.bank_code then []
  else match _validate_numeric (row.bank_code.getD .vNan) "銀行コード" (some 4) with
    | .ok bc => if 4 < bc.length then [VError.bankCodeOver4] else []
    | .error e => [e]

/-- The branch-code stanza. -/
def branchCodeErrors (row : Row) : List VError :=
  if isNaLike row.branch_code then []
  else match _validate_numeric (row.branch_code.getD .vNan) "支店コード" (some 3) with
    | .ok bc => if 3 < bc.length then [VError.branchCodeOver3] else []
    | .error e => [e]

/-- The account-number stanza. -/
def accountNumberErrors (row : Row) : List VError :=
  if isNaLike row.account_number then []
  else match _validate_numeric (row.account_number.getD .vNan) "口座番号" (some 7) with
    | .ok an => if 7 < an.length then [VError.accountNumberOver7] else []
    | .error e => [e]

/-- The account-type stanza: only membership in `{"1", "2", "普通", "当座"}`
is checked; no translation happens here. -/
def accountTypeErrors (row : Row) : List VError :=
  if isNaLike row.account_type then []
  else
    let account_type := pyStrip (pyStr (row.account_type.getD .vNan))
    if account_type ∉ [asciiStr "1", asciiStr "2", strFutsu, strToza] then
      [VError.accountTypeInvalid]
    else []

/-- The amount stanza. -/
def amountErrors (row : Row) : List VError :=
  if isNaLike row.amount then []
  else match row.amount.getD .vNan with
    | .vInt n => if n ≤ 0 then [VError.amountNotPositive] else []
    | .vStr s =>
      match pyIntFloat (pyStrip (removeCommas s)) with
      | some a => if a ≤ 0 then [VError.amountNotPositive] else []
      | none => [VError.amountInvalidFormat]
    | .vNan => []

/-- The recipient-name stanza. -/
def recipientNameErrors (row : Row) : List VError :=
  if isNaLike row.recipient_name then []
  else
    let recipient_name := pyStrip (pyStr (row.recipient_name.getD .vNan))
    if recipient_name = [] then [VError.recipientNameEmpty]
    else
      if 30 < (encodeStr (_to_hankaku_kana recipient_name)).length then
        [VError.recipientNameTooLong]
      else []

/-- `validate_customer_data(row)`: all stanzas run, errors are collected in
source order, the row is valid when no error was collected. -/
def validate_customer_data (row : Row) : Bool × List VError :=
  let errors := requiredErrors row ++ bankCodeErrors row ++ branchCodeErrors row ++
    accountNumberErrors row ++ accountTypeErrors row ++ amountErrors row ++
    recipientNameErrors row
  (errors.isEmpty, errors)

/-! ### The record encoder -/

/-- Exceptions escaping `convert_row_to_record`. -/
inductive CErr where
  | validationError (errors : List VError)
  | numericError (e : VError)
  | unexpectedError
deriving DecidableEq

/-- Resolution of the account-category field inside the encoder (step 7 of
`convert_row_to_record`): names are translated to their digit codes here,
anything unrecognized falls back to `"1"`. -/
def resolveAccountType (account_type : List JChar) : List JChar :=
  if account_type = strFutsu ∨ pyLower account_type = asciiStr "futsu" then asciiStr "1"
  else if account_type = strToza ∨ pyLower account_type = asciiStr "toza" then asciiStr "2"
  else if account_type = strChochiku ∨ pyLower account_type = asciiStr "chochiku" then
    asciiStr "4"
  else if account_type ∉ [asciiStr "1", asciiStr "2", asciiStr "4", asciiStr "9"] then
    asciiStr "1"
  else account_type

/-- Resolution of the new/continuing flag (step 11): anything other than
`"1"`/`"2"` falls back to `"1"`. -/
def resolveNewCode (new_code : List JChar) : List JChar :=
  if new_code ∉ [asciiStr "1", asciiStr "2"] then asciiStr "1" else new_code

/-- `str(row.get(key, default))` followed by nothing; the default is the
string the source supplies. -/
def rowGet (v : Option Value) (dflt : List JChar) : List JChar :=
  match v with
  | some x => pyStr x
  | none => dflt

/-- Lift an `Option` whose `none` is an exception the composer records as
unexpected. -/
def orUnexpected {α : Type} : Option α → Except CErr α
  | some a => .ok a
  | none => .error .unexpectedError

/-- `convert_row_to_record(row, requester_code, requester_name)` (the two
requester arguments are accepted and ignored, as in the source).  Builds the
120-byte data record by mutating a space-filled buffer field by field. -/
def convert_row_to_record (row : Row) (requester_code requester_name : List JChar) :
    Except CErr (List JChar) :=
  let v := validate_customer_data row
  if ¬ v.1 then .error (.validationError v.2)
  else do
    let buf0 : List Nat := List.replicate 120 0x20
    -- 1. data type "2"
    let buf1 := splice buf0 0 [0x32]
    -- 2. bank code, 4 bytes right-aligned zero-filled
    let bankVal ← orUnexpected row.bank_code
    let bank_code ← (_validate_numeric bankVal "銀行コード" (some 4)).mapError CErr.numericError
    let bank_code_str ← orUnexpected (_pad_string bank_code 4 strZero strRight)
    let buf2 := splice buf1 1 (encodeStr bank_code_str)
    -- 3. bank name, 15 bytes left-aligned space-filled half-width kana
    let bank_name := pyStrip (rowGet row.bank_name [])
    let bank_name_str ← orUnexpected
      (_pad_string (_to_hankaku_kana bank_name) 15 strSpace strLeft)
    let buf3 := splice buf2 5 ((encodeStr bank_name_str).take 15)
    -- 4. branch code, 3 bytes right-aligned zero-filled
    let branchVal ← orUnexpected row.branch_code
    let branch_code ← (_validate_numeric branchVal "支店コード" (some 3)).mapError CErr.numericError
    let branch_code_str ← orUnexpected (_pad_string branch_code 3 strZero strRight)
    let buf4 := splice buf3 20 (encodeStr branch_code_str)
    -- 5. branch name, 15 bytes left-aligned space-filled half-width kana
    let branch_name := pyStrip (rowGet row.branch_name [])
    let branch_name_str ← orUnexpected
      (_pad_string (_to_hankaku_kana branch_name) 15 strSpace strLeft)
    let buf5 := splice buf4 23 ((encodeStr branch_name_str).take 15)
    -- 6. clearing house, 4 bytes right-aligned zero-filled, default "0000"
    let clearing_house := pyStrip (rowGet row.clearing_house (asciiStr "0000"))
    let clearing_house_str ← orUnexpected (_pad_string clearing_house 4 strZero strRight)
    let buf6 := splice buf5 38 (encodeStr clearing_house_str)
    -- 7. account type, 1 byte, default "1", names resolved to digit codes
    let account_type := resolveAccountType (pyStrip (rowGet row.account_type (asciiStr "1")))
    let atByte ← orUnexpected (pyOrdByte account_type)
    let buf7 := splice buf6 42 [atByte]
    -- 8. account number, 7 bytes right-aligned zero-filled
    let anVal ← orUnexpected row.account_number
    let account_number ← (_validate_numeric anVal "口座番号" (some 7)).mapError CErr.numericError
    let account_number_str ← orUnexpected (_pad_string account_number 7 strZero strRight)
    let buf8 := splice buf7 43 (encodeStr account_number_str)
    -- 9. recipient name, 30 bytes left-aligned space-filled half-width kana
    let rnVal ← orUnexpected row.recipient_name
    let recipient_name := pyStrip (pyStr rnVal)
    let recipient_name_str ← orUnexpected
      (_pad_string (_to_hankaku_kana recipient_name) 30 strSpace strLeft)
    let buf9 := splice buf8 50 ((encodeStr recipient_name_str).take 30)
    -- 10. amount, 10 bytes right-aligned zero-filled
    let amtVal ← orUnexpected row.amount
    let amount_value ← (match amtVal with
      | .vInt n => Except.ok n
      | .vStr s => orUnexpected (pyIntFloat (pyStrip (removeCommas s)))
      | .vNan => Except.error CErr.unexpectedError)
    let amount_str ← orUnexpected (_pad_string (pyStrOfInt amount_value) 10 strZero strRight)
    let buf10 := splice buf9 80 (encodeStr amount_str)
    -- 11. new code, 1 byte, default "1"
    let new_code := resolveNewCode (pyStrip (rowGet row.new_code (asciiStr "1")))
    let ncByte ← orUnexpected (pyOrdByte new_code)
    let buf11 := splice buf10 90 [ncByte]
    -- 12. customer code 1, 10 bytes left-aligned space-filled
    let customer_code1 := pyStrip (rowGet row.customer_code1 [])
    let customer_code1_str ← orUnexpected (_pad_string customer_code1 10 strSpace strLeft)
    let buf12 := splice buf11 91 ((encodeStr customer_code1_str).take 10)
    -- 13. customer code 2, 10 bytes left-aligned space-filled
    let customer_code2 := pyStrip (rowGet row.customer_code2 [])
    let customer_code2_str ← orUnexpected (_pad_string customer_code2 10 strSpace strLeft)
    let buf13 := splice buf12 101 ((encodeStr customer_code2_str).take 10)
    -- 14. transfer type, 1 byte, default "0"
    let transfer_type := pyStrip (rowGet row.transfer_type (asciiStr "0"))
    let ttByte ← orUnexpected (pyOrdByte transfer_type)
    let buf14 := splice buf13 111 [ttByte]
    -- 15./16. identification and dummy stay space-filled
    orUnexpected (decodeBytes buf14)

/-! ### Header, trailer and end records -/

/-- `date.strftime("%m%d")`: four ASCII digits (a real `datetime` always
yields two digits for each part; the reduction mod 100 is never reached). -/
def strftimeMMDD (month day : Nat) : List Nat :=
  [0x30 + month / 10 % 10, 0x30 + month % 10, 0x30 + day / 10 % 10, 0x30 + day % 10]

/-- `create_header_record(record_count, date)`.  The count is accepted and
unused; requester and bank identity fields are blank placeholders, exactly
as in the source. -/
def create_header_record (record_count : Nat) (month day : Nat) : Option (List JChar) := do
  let buf0 : List Nat := List.replicate 120 0x20
  let buf1 := splice buf0 0 [0x31]                      -- data type "1"
  let buf2 := splice buf1 1 [0x32, 0x31]                -- type code "21"
  let buf3 := splice buf2 3 [0x30]                      -- code class "0"
  let requester_code_str ← _pad_string [] 10 strSpace strLeft
  let buf4 := splice buf3 4 ((encodeStr requester_code_str).take 10)
  let requester_name_str ← _pad_string (_to_hankaku_kana []) 40 strSpace strLeft
  let buf5 := splice buf4 14 ((encodeStr requester_name_str).take 40)
  let buf6 := splice buf5 54 (strftimeMMDD month day)   -- transfer date MMDD
  let buf7 := splice buf6 58 (encodeStr (asciiStr "0000"))
  let sending_bank_name_str ← _pad_string (_to_hankaku_kana []) 15 strSpace strLeft
  let buf8 := splice buf7 62 ((encodeStr sending_bank_name_str).take 15)
  let buf9 := splice buf8 77 (encodeStr (asciiStr "000"))
  let sending_branch_name_str ← _pad_string (_to_hankaku_kana []) 15 strSpace strLeft
  let buf10 := splice buf9 80 ((encodeStr sending_branch_name_str).take 15)
  let buf11 := splice buf10 95 [0x31]                   -- account type "1"
  let buf12 := splice buf11 96 (encodeStr (asciiStr "0000000"))
  decodeBytes buf12

/-- `create_trailer_record(record_count, total_amount)`. -/
def create_trailer_record (record_count : Nat) (total_amount : Int) :
    Option (List JChar) := do
  let buf0 : List Nat := List.replicate 120 0x20
  let buf1 := splice buf0 0 [0x38]                      -- data type "8"
  let record_count_str ← _pad_string (pyStrOfNat record_count) 6 strZero strRight
  let buf2 := splice buf1 1 (encodeStr record_count_str)
  let total_amount_str ← _pad_string (pyStrOfInt total_amount) 12 strZero strRight
  let buf3 := splice buf2 7 (encodeStr total_amount_str)
  decodeBytes buf3

/-- `create_end_record(record_count)`: the count argument is ignored — the
end record is the constant `"9"` followed by 119 spaces. -/
def create_end_record (record_count : Nat) : Option (List JChar) :=
  decodeBytes (splice (List.replicate 120 0x20) 0 [0x39])

/-! ### The batch composer -/

/-- `ZenginFormatError`s raised by `convert_excel_to_zengin` (the outer
`except Exception` of the source re-raises each of them with a
`"ファイル読み込みエラー: "` message prefix; the structured content modelled
here is unchanged by that wrapping). -/
inductive BodyError where
  | emptyExcel
  | noConvertibleData
  | conversionErrors (errs : List (Nat × CErr))
  | unexpectedError
deriving DecidableEq

/-- The amount accumulated for the trailer total for one row:
`int(float(str(row_dict.get("amount", 0)).replace(",", "")))`, with NaN
skipped and conversion errors ignored (contributing 0). -/
def totalAmountContribution (row : Row) : Int :=
  match row.amount.getD (Value.vInt 0) with
  | .vNan => 0
  | v =>
    match pyIntFloat (pyStrip (removeCommas (pyStr v))) with
    | some a => a
    | none => 0

/-- The row loop of `convert_excel_to_zengin`: converted records in input
order, the running total, and the `(idx + 2, error)` pairs of failing rows
(+2 accounts for the header row and 0-based indexing, as in the source). -/
def convertLoop (requester_code requester_name : List JChar) :
    List Row → Nat → List (List JChar) × Int × List (Nat × CErr)
  | [], _ => ([], 0, [])
  | row :: rest, idx =>
    let tail := convertLoop requester_code requester_name rest (idx + 1)
    match convert_row_to_record row requester_code requester_name with
    | .ok rec => (rec :: tail.1, totalAmountContribution row + tail.2.1, tail.2.2)
    | .error e => (tail.1, tail.2.1, (idx + 2, e) :: tail.2.2)

def orBodyUnexpected {α : Type} : Option α → Except BodyError α
  | some a => .ok a
  | none => .error .unexpectedError

/-- `convert_excel_to_zengin`: spreadsheet reading and column aliasing are
the excluded ingestion layer; this takes the row sequence directly, plus the
current date used for the header.  All-or-nothing: any failing row aborts
with an error; at most the first 10 failures are reported; if no row
converted, a generic no-data error is raised instead. -/
def convert_excel_to_zengin (rows : List Row) (requester_code requester_name : List JChar)
    (month day : Nat) : Except BodyError (List (List JChar)) :=
  if rows.isEmpty then .error .emptyExcel
  else
    let loop := convertLoop requester_code requester_name rows 0
    let records := loop.1
    let total_amount := loop.2.1
    let error_rows := loop.2.2
    if records.isEmpty then .error .noConvertibleData
    else if ¬ error_rows.isEmpty then .error (.conversionErrors (error_rows.take 10))
    else do
      let header ← orBodyUnexpected (create_header_record records.length month day)
      let trailer ← orBodyUnexpected (create_trailer_record records.length total_amount)
      let endRec ← orBodyUnexpected (create_end_record (records.length + 2))
      .ok (header :: records ++ [trailer, endRec])

/-! ### The file writer -/

/-- The format error of `save_zengin_file`: 1-based record ordinal and the
actual byte length. -/
inductive SaveError where
  | recordLengthError (ordinal : Nat) (byte_length : Nat)
deriving DecidableEq

/-- The validation loop of `save_zengin_file`: the first record whose
re-encoded byte length is not 120, if any. -/
def checkRecords : List (List JChar) → Nat → Option SaveError
  | [], _ => none
  | r :: rest, i =>
    if (encodeStr r).length ≠ 120 then some (.recordLengthError (i + 1) (encodeStr r).length)
    else checkRecords rest (i + 1)

/-- `save_zengin_file(records, ..., encoding="shift_jis", newline)`: verify
every record's byte length before opening the file, then write each record
followed by the newline bytes.  The returned byte list is the file content;
an error means nothing was written. -/
def save_zengin_file (records : List (List JChar)) (newline : List Nat) :
    Except SaveError (List Nat) :=
  match checkRecords records 0 with
  | some e => .error e
  | none => .ok ((records.map (fun r => encodeStr r ++ newline)).flatten)

/-! ### Concrete sample rows used by the witnesses -/

/-- The first scenario row of the spec: bank `"9"`, branch `"1"`, account
`"42"`, category `"普通"`, full-width name `"ヤマダ　タロウ"`, amount
`"1,000"`; the optional fields are absent. -/
def sampleRow1 : Row :=
  { bank_code := some (.vStr (asciiStr "9"))
    branch_code := some (.vStr (asciiStr "1"))
    account_number := some (.vStr (asciiStr "42"))
    account_type := some (.vStr strFutsu)
    recipient_name := some (.vStr [JChar.double 0x83 0x84, JChar.double 0x83 0x7D,
      JChar.double 0x83 0x5F, JChar.double 0x81 0x40, JChar.double 0x83 0x5E,
      JChar.double 0x83 0x8D, JChar.double 0x83 0x45])
    amount := some (.vStr (asciiStr "1,000")) }

/-- The second scenario row: bank `"1234"`, branch `"567"`, account
`"1234567"`, category `"当座"`, full-width name `"タナカ"`, amount `5000`. -/
def sampleRow2 : Row :=
  { bank_code := some (.vStr (asciiStr "1234"))
    branch_code := some (.vStr (asciiStr "567"))
    account_number := some (.vStr (asciiStr "1234567"))
    account_type := some (.vStr strToza)
    recipient_name := some (.vStr [JChar.double 0x83 0x5E, JChar.double 0x83 0x69,
      JChar.double 0x83 0x4A])
    amount := some (.vInt 5000) }

/-- A row failing validation: its amount is the negative integer -100. -/
def badAmountRow : Row :=
  { bank_code := some (.vStr (asciiStr "9"))
    branch_code := some (.vStr (asciiStr "1"))
    account_number := some (.vStr (asciiStr "42"))
    recipient_name := some (.vStr [JChar.double 0x83 0x5E, JChar.double 0x83 0x69,
      JChar.double 0x83 0x4A])
    amount := some (.vInt (-100)) }

/-! ### Claim C8: kana normalization is idempotent -/

theorem lookup_mem {α β : Type} [BEq α] [LawfulBEq α] :
    ∀ (l : List (α × β)) (a : α) (b : β), l.lookup a = some b → (a, b) ∈ l
  | [], a, b, h => by simp [List.lookup] at h
  | (k, v) :: rest, a, b, h => by
    rw [List.lookup] at h
    by_cases hk : a == k
    · rw [hk] at h
      simp at h hk
      subst hk
      subst h
      exact List.mem_cons_self ..
    · rw [Bool.not_eq_true] at hk
      rw [hk] at h
      exact List.mem_cons_of_mem _ (lookup_mem rest a b h)

theorem flatMap_id_of_singleton {α : Type} (f : α → List α) :
    ∀ (l : List α), (∀ d ∈ l, f d = [d]) → l.flatMap f = l
  | [], _ => rfl
  | c :: rest, h => by
    rw [List.flatMap_cons, h c (List.mem_cons_self ..),
      flatMap_id_of_singleton f rest (fun d hd => h d (List.mem_cons_of_mem _ hd))]
    rfl

/-- Every character the table produces is itself unmapped (half-width output
never appears among the full-width keys). -/
theorem hankaku_output_unmapped :
    ∀ p ∈ ZENKAKU_TO_HANKAKU_CHARS, ∀ d ∈ p.2.data,
      ZENKAKU_TO_HANKAKU_CHARS.lookup d = none := by
  decide

/-- C8: for every input string, applying the full-width-to-half-width kana
normalization twice gives the same result as applying it once. -/
theorem C8_kana_normalization_idempotent (x : String) :
    toHankakuKanaChars (toHankakuKanaChars x) = toHankakuKanaChars x := by
  unfold toHankakuKanaChars
  congr 1
  show (x.data.flatMap _).flatMap _ = x.data.flatMap _
  induction x.data with
  | nil => rfl
  | cons c rest ih =>
    rw [List.flatMap_cons, List.flatMap_append, ih]
    congr 1
    cases hl : ZENKAKU_TO_HANKAKU_CHARS.lookup c with
    | some r =>
      simp only [hl]
      refine flatMap_id_of_singleton _ r.data (fun d hd => ?_)
      have hmem := lookup_mem _ _ _ hl
      have := hankaku_output_unmapped (c, r) hmem d hd
      simp only [this]
    | none =>
      simp only [hl, List.flatMap_cons, List.flatMap_nil, List.append_nil]

/-! ### Claims C4 and C5: the byte-exact field packer -/

/-- C4 (amended): for every well-formed input value, every alignment, every
target byte count, and every fill character whose own encoding is a single
byte, the field packer returns a string whose encoded byte length is exactly
`target_bytes`.  (As stated over arbitrary fill characters the claim fails:
a two-byte or empty fill string makes the padding the wrong size — see the
counterexample.) -/
theorem C4_packer_exact_byte_length (value : List JChar) (target_bytes : Nat)
    (fill align : List JChar) (hv : WFStr value) (hf : WFStr fill)
    (hf1 : (encodeStr fill).length = 1) :
    ∃ r, _pad_string value target_bytes fill align = some r ∧
      (encodeStr r).length = target_bytes := by
  obtain ⟨r, h1, _, h3⟩ := pad_string_ok value target_bytes fill align hv hf hf1
  exact ⟨r, h1, h3⟩

/-- C4 counterexample: with the two-byte fill character `"ア"` (Shift-JIS
0x8341) and target 3, padding the empty value returns `"アアア"`, whose
encoded byte length is 6, not 3. -/
theorem C4_counterexample :
    _pad_string [] 3 [JChar.double 0x83 0x41] strLeft
        = some [JChar.double 0x83 0x41, JChar.double 0x83 0x41, JChar.double 0x83 0x41] ∧
      (encodeStr [JChar.double 0x83 0x41, JChar.double 0x83 0x41,
        JChar.double 0x83 0x41]).length = 6 := by
  constructor <;> decide

theorem C4_packer_exact_byte_length_witness :
    ∃ r, _pad_string (asciiStr "123") 4 strZero strRight = some r ∧
      (encodeStr r).length = 4 :=
  C4_packer_exact_byte_length (asciiStr "123") 4 strZero strRight
    (by decide) (by decide) (by decide)

/-- C5 (amended): when the encoded value is longer than `target_bytes` the
field packer never raises and never emits a malformed byte sequence: it
truncates at the byte boundary, backs off byte-by-byte (at most 2 bytes,
in fact at most 1 suffices) until the remainder re-decodes cleanly, and pads
the freed space with the SPACE character — not with `fill_char`, which the
truncation branch ignores (see the counterexample). -/
theorem C5_truncation_safe (value : List JChar) (target_bytes : Nat)
    (fill align : List JChar) (hv : WFStr value)
    (hlong : target_bytes < (encodeStr value).length) :
    ∃ r, _pad_string value target_bytes fill align = some r ∧ WFStr r ∧
      (encodeStr r).length = target_bytes ∧
      ((decodeBytes ((encodeStr value).take target_bytes) = some r) ∨
        (∃ r0, decodeBytes ((encodeStr value).take (target_bytes - 1)) = some r0 ∧
          r = r0 ++ [spaceJ])) :=
  pad_string_truncate value target_bytes fill align hv hlong

/-- C5 counterexample: truncating `"ア"` to 1 byte with fill character `"0"`
pads the freed byte with a space, not with the fill character. -/
theorem C5_counterexample :
    _pad_string [JChar.double 0x83 0x41] 1 strZero strRight = some [spaceJ] ∧
      spaceJ ≠ JChar.single 0x30 := by
  constructor <;> decide

theorem C5_truncation_safe_witness :
    ∃ r, _pad_string [JChar.double 0x83 0x41, JChar.double 0x83 0x43] 3 strZero strLeft
        = some r ∧ WFStr r ∧ (encodeStr r).length = 3 ∧
      ((decodeBytes ((encodeStr [JChar.double 0x83 0x41, JChar.double 0x83 0x43]).take 3)
          = some r) ∨
        (∃ r0, decodeBytes ((encodeStr [JChar.double 0x83 0x41,
            JChar.double 0x83 0x43]).take 2) = some r0 ∧ r = r0 ++ [spaceJ])) :=
  C5_truncation_safe [JChar.double 0x83 0x41, JChar.double 0x83 0x43] 3 strZero strLeft
    (by decide) (by decide)

/-! ### Claim C9: the writer's byte-length gate -/

theorem checkRecords_all_ok (records : List (List JChar)) :
    ∀ i, (∀ r ∈ records, (encodeStr r).length = 120) → checkRecords records i = none := by
  induction records with
  | nil => intro i _; rfl
  | cons r rest ih =>
    intro i h
    unfold checkRecords
    rw [if_neg (by simpa using h r (List.mem_cons_self ..))]
    exact ih (i + 1) (fun x hx => h x (List.mem_cons_of_mem _ hx))

theorem checkRecords_first_bad :
    ∀ (records : List (List JChar)) (i j : Nat) (hj : j < records.length),
      (encodeStr (records.get ⟨j, hj⟩)).length ≠ 120 →
      (∀ r ∈ records.take j, (encodeStr r).length = 120) →
      checkRecords records i
        = some (.recordLengthError (i + j + 1) (encodeStr (records.get ⟨j, hj⟩)).length)
  | [], i, j, hj, _, _ => by simp at hj
  | r :: rest, i, 0, hj, hbad, _ => by
    unfold checkRecords
    simp only [List.get] at hbad ⊢
    rw [if_pos hbad]
  | r :: rest, i, j + 1, hj, hbad, hgood => by
    unfold checkRecords
    have h0 : (encodeStr r).length = 120 := by
      refine hgood r ?_
      rw [List.take_succ_cons]
      exact List.mem_cons_self ..
    rw [if_neg (by simpa using h0)]
    have hj2 : j < rest.length := by simpa using hj
    have := checkRecords_first_bad rest (i + 1) j hj2
      (by simpa using hbad)
      (fun x hx => hgood x (by rw [List.take_succ_cons]; exact List.mem_cons_of_mem _ hx))
    rw [this]
    congr 2
    omega

/-- C9: before writing any bytes the file writer re-encodes every record and
checks its byte length is exactly 120.  If every record passes, the full
batch is written (each record followed by the newline); otherwise the whole
write aborts with a format error naming the first offending record's 1-based
ordinal and its actual byte length, and nothing is written. -/
theorem C9_writer_length_check (records : List (List JChar)) (newline : List Nat) :
    ((∀ r ∈ records, (encodeStr r).length = 120) →
      save_zengin_file records newline
        = .ok ((records.map (fun r => encodeStr r ++ newline)).flatten)) ∧
    (∀ j (hj : j < records.length),
      (encodeStr (records.get ⟨j, hj⟩)).length ≠ 120 →
      (∀ r ∈ records.take j, (encodeStr r).length = 120) →
      save_zengin_file records newline
        = .error (.recordLengthError (j + 1) (encodeStr (records.get ⟨j, hj⟩)).length)) := by
  constructor
  · intro h
    unfold save_zengin_file
    rw [checkRecords_all_ok records 0 h]
  · intro j hj hbad hgood
    unfold save_zengin_file
    rw [checkRecords_first_bad records 0 j hj hbad hgood]
    simp

theorem C9_writer_length_check_witness :
    save_zengin_file [[spaceJ]] [0x0D, 0x0A] = .error (.recordLengthError 1 1) := by
  have h := (C9_writer_length_check [[spaceJ]] [0x0D, 0x0A]).2 0 (by decide) (by decide)
    (fun r hr => absurd hr (by simp))
  simpa using h

/-! ### Which stanza can produce which error -/

theorem _validate_numeric_error_cases (v : Value) (fn : String) (m : Option Nat) (e : VError)
    (h : _validate_numeric v fn m = .error e) :
    e = .numericEmpty fn ∨ e = .numericNotDigits fn ∨ e = .numericTooManyDigits fn := by
  unfold _validate_numeric at h
  by_cases h1 : v = Value.vNan
  · rw [if_pos h1] at h
    left; exact (Except.error.inj h).symm
  · rw [if_neg h1] at h
    dsimp only at h
    by_cases h2 : pyIsDigit (pyStrip (pyStr v))
    · rw [if_neg (by simpa using h2)] at h
      cases m with
      | none => cases h
      | some k =>
        dsimp only at h
        split at h
        · right; right; exact (Except.error.inj h).symm
        · cases h
    · rw [if_pos (by simpa using h2)] at h
      right; left; exact (Except.error.inj h).symm

theorem mem_requiredErrors (row : Row) (e : VError) (h : e ∈ requiredErrors row) :
    ∃ f, e = .requiredMissing f := by
  unfold requiredErrors at h
  rcases List.mem_filterMap.1 h with ⟨p, _, hpe⟩
  split at hpe
  · exact ⟨p.1, (Option.some.inj hpe).symm⟩
  · cases hpe

theorem mem_bankCodeErrors (row : Row) (e : VError) (h : e ∈ bankCodeErrors row) :
    (∃ f, e = .numericEmpty f ∨ e = .numericNotDigits f ∨ e = .numericTooManyDigits f) ∨
      e = .bankCodeOver4 := by
  unfold bankCodeErrors at h
  split at h
  · cases h
  · split at h
    · split at h
      · right; simpa using h
      · cases h
    · left
      rename_i e' he'
      refine ⟨"銀行コード", ?_⟩
      have hm : e = e' := by simpa using h
      subst hm
      exact _validate_numeric_error_cases _ _ _ _ he'

theorem mem_branchCodeErrors (row : Row) (e : VError) (h : e ∈ branchCodeErrors row) :
    (∃ f, e = .numericEmpty f ∨ e = .numericNotDigits f ∨ e = .numericTooManyDigits f) ∨
      e = .branchCodeOver3 := by
  unfold branchCodeErrors at h
  split at h
  · cases h
  · split at h
    · split at h
      · right; simpa using h
      · cases h
    · left
      rename_i e' he'
      refine ⟨"支店コード", ?_⟩
      have hm : e = e' := by simpa using h
      subst hm
      exact _validate_numeric_error_cases _ _ _ _ he'

theorem mem_accountNumberErrors (row : Row) (e : VError) (h : e ∈ accountNumberErrors row) :
    (∃ f, e = .numericEmpty f ∨ e = .numericNotDigits f ∨ e = .numericTooManyDigits f) ∨
      e = .accountNumberOver7 := by
  unfold accountNumberErrors at h
  split at h
  · cases h
  · split at h
    · split at h
      · right; simpa using h
      · cases h
    · left
      rename_i e' he'
      refine ⟨"口座番号", ?_⟩
      have hm : e = e' := by simpa using h
      subst hm
      exact _validate_numeric_error_cases _ _ _ _ he'

theorem mem_accountTypeErrors (row : Row) (e : VError) (h : e ∈ accountTypeErrors row) :
    e = .accountTypeInvalid := by
  unfold accountTypeErrors at h
  split at h
  · cases h
  · dsimp only at h
    split at h
    · simpa using h
    · cases h

theorem mem_amountErrors (row : Row) (e : VError) (h : e ∈ amountErrors row) :
    e = .amountNotPositive ∨ e = .amountInvalidFormat := by
  unfold amountErrors at h
  split at h
  · cases h
  · split at h
    · split at h
      · left; simpa using h
      · cases h
    · split at h
      · split at h
        · left; simpa using h
        · cases h
      · right; simpa using h
    · cases h

theorem mem_recipientNameErrors (row : Row) (e : VError) (h : e ∈ recipientNameErrors row) :
    e = .recipientNameEmpty ∨ e = .recipientNameTooLong := by
  unfold recipientNameErrors at h
  split at h
  · cases h
  · dsimp only at h
    split at h
    · left; simpa using h
    · split at h
      · right; simpa using h
      · cases h

theorem mem_validate_elim (row : Row) (x : VError)
    (hx : x ∈ (validate_customer_data row).2) :
    x ∈ requiredErrors row ∨ x ∈ bankCodeErrors row ∨ x ∈ branchCodeErrors row ∨
      x ∈ accountNumberErrors row ∨ x ∈ accountTypeErrors row ∨ x ∈ amountErrors row ∨
      x ∈ recipientNameErrors row := by
  unfold validate_customer_data at hx
  simpa [List.mem_append, or_assoc] using hx

theorem mem_validate_intro (row : Row) (x : VError)
    (hx : x ∈ requiredErrors row ∨ x ∈ bankCodeErrors row ∨ x ∈ branchCodeErrors row ∨
      x ∈ accountNumberErrors row ∨ x ∈ accountTypeErrors row ∨ x ∈ amountErrors row ∨
      x ∈ recipientNameErrors row) :
    x ∈ (validate_customer_data row).2 := by
  unfold validate_customer_data
  simpa [List.mem_append, or_assoc] using hx

/-- The only stanza that can emit `accountTypeInvalid` is the account-type
stanza. -/
theorem accountTypeInvalid_from_stanza (row : Row)
    (h : VError.accountTypeInvalid ∈ (validate_customer_data row).2) :
    VError.accountTypeInvalid ∈ accountTypeErrors row := by
  rcases mem_validate_elim row _ h with hc | hc | hc | hc | hc | hc | hc
  · obtain ⟨f, hf⟩ := mem_requiredErrors row _ hc; simp at hf
  · rcases mem_bankCodeErrors row _ hc with ⟨f, hf | hf | hf⟩ | hf <;> simp at hf
  · rcases mem_branchCodeErrors row _ hc with ⟨f, hf | hf | hf⟩ | hf <;> simp at hf
  · rcases mem_accountNumberErrors row _ hc with ⟨f, hf | hf | hf⟩ | hf <;> simp at hf
  · exact hc
  · rcases mem_amountErrors row _ hc with hf | hf <;> simp at hf
  · rcases mem_recipientNameErrors row _ hc with hf | hf <;> simp at hf

/-- The only stanza that can emit the amount errors is the amount stanza. -/
theorem amountError_from_stanza (row : Row) (x : VError)
    (hx : x = VError.amountNotPositive ∨ x = VError.amountInvalidFormat)
    (h : x ∈ (validate_customer_data row).2) : x ∈ amountErrors row := by
  rcases mem_validate_elim row _ h with hc | hc | hc | hc | hc | hc | hc
  · obtain ⟨f, hf⟩ := mem_requiredErrors row _ hc
    rcases hx with rfl | rfl <;> simp at hf
  · rcases mem_bankCodeErrors row _ hc with ⟨f, hf | hf | hf⟩ | hf <;>
      rcases hx with rfl | rfl <;> simp at hf
  · rcases mem_branchCodeErrors row _ hc with ⟨f, hf | hf | hf⟩ | hf <;>
      rcases hx with rfl | rfl <;> simp at hf
  · rcases mem_accountNumberErrors row _ hc with ⟨f, hf | hf | hf⟩ | hf <;>
      rcases hx with rfl | rfl <;> simp at hf
  · have := mem_accountTypeErrors row _ hc
    rcases hx with rfl | rfl <;> simp at this
  · exact hc
  · rcases mem_recipientNameErrors row _ hc with hf | hf <;>
      rcases hx with rfl | rfl <;> simp at hf

/-! ### Claim C6: account-category validation -/

/-- C6 (amended): for a row whose account category is a present string, the
category passes validation exactly when the stripped value is one of the
coded digits `"1"`, `"2"` or one of the two recognized names 普通 (ordinary)
and 当座 (current) — the savings name 貯蓄 and the coded digits `"4"`/`"9"`,
although understood by the encoder, are rejected by validation.  The
name-to-digit translation is performed by `resolveAccountType` at encoding
time (ordinary to `"1"`, current to `"2"`, savings to `"4"`); validation
only tests membership. -/
theorem C6_account_category_validation (row : Row) (s : List JChar)
    (hat : row.account_type = some (.vStr s)) :
    (VError.accountTypeInvalid ∉ (validate_customer_data row).2
      ↔ pyStrip s ∈ [asciiStr "1", asciiStr "2", strFutsu, strToza])
    ∧ resolveAccountType strFutsu = asciiStr "1"
    ∧ resolveAccountType strToza = asciiStr "2"
    ∧ resolveAccountType strChochiku = asciiStr "4" := by
  have hat_eval : accountTypeErrors row
      = (if pyStrip s ∉ [asciiStr "1", asciiStr "2", strFutsu, strToza]
         then [VError.accountTypeInvalid] else []) := by
    unfold accountTypeErrors
    rw [hat]
    simp [isNaLike, pyStr]
  refine ⟨⟨?_, ?_⟩, by decide, by decide, by decide⟩
  · intro hnotin
    by_contra hnot
    refine hnotin (mem_validate_intro row _ ?_)
    right; right; right; right; left
    rw [hat_eval, if_pos hnot]
    exact List.mem_cons_self ..
  · intro hin hmem2
    have hstanza := accountTypeInvalid_from_stanza row hmem2
    rw [hat_eval, if_neg (not_not_intro hin)] at hstanza
    cases hstanza

theorem C6_account_category_validation_witness :
    (VError.accountTypeInvalid ∉ (validate_customer_data sampleRow1).2
      ↔ pyStrip strFutsu ∈ [asciiStr "1", asciiStr "2", strFutsu, strToza])
    ∧ resolveAccountType strFutsu = asciiStr "1"
    ∧ resolveAccountType strToza = asciiStr "2"
    ∧ resolveAccountType strChochiku = asciiStr "4" :=
  C6_account_category_validation sampleRow1 strFutsu rfl

/-- A valid row except that its account category is the savings name 貯蓄. -/
def savingsRow : Row :=
  { sampleRow2 with account_type := some (.vStr strChochiku) }

/-- C6 counterexample: the savings category name 貯蓄 — one of the three
recognized category names, which the encoder itself translates to the coded
digit `"4"` — fails validation (and so does the coded digit `"4"`); the
validator accepts only `"1"`, `"2"`, 普通 and 当座. -/
theorem C6_counterexample :
    (validate_customer_data savingsRow).1 = false ∧
      (validate_customer_data savingsRow).2 = [VError.accountTypeInvalid] ∧
      resolveAccountType strChochiku = asciiStr "4" ∧
      (validate_customer_data { savingsRow with
        account_type := some (.vStr (asciiStr "4")) }).1 = false := by
  refine ⟨?_, ?_, ?_, ?_⟩ <;> decide

/-! ### Claim C7: amount validation -/

/-- C7 (amended): the amount passes validation exactly when it parses as a
decimal numeral — thousands separators removed and surrounding whitespace
stripped first — whose truncation towards zero is positive.  A positive
integer numeral is the common case, but integrality is NOT required: the
source parses with `int(float(...))`, so a fractional amount such as
`"3.5"` also passes (see the counterexample); zero or negative fails. -/
theorem C7_amount_validation (row : Row) :
    (∀ s, row.amount = some (.vStr s) →
      ((VError.amountNotPositive ∉ (validate_customer_data row).2 ∧
        VError.amountInvalidFormat ∉ (validate_customer_data row).2)
        ↔ ∃ a, pyIntFloat (pyStrip (removeCommas s)) = some a ∧ 0 < a))
    ∧ (∀ n, row.amount = some (.vInt n) →
      ((VError.amountNotPositive ∉ (validate_customer_data row).2 ∧
        VError.amountInvalidFormat ∉ (validate_customer_data row).2) ↔ 0 < n)) := by
  constructor
  · intro s hs
    have heval : amountErrors row
        = (match pyIntFloat (pyStrip (removeCommas s)) with
           | some a => if a ≤ 0 then [VError.amountNotPositive] else []
           | none => [VError.amountInvalidFormat]) := by
      unfold amountErrors
      rw [hs]
      simp [isNaLike]
    constructor
    · rintro ⟨hnp, hif⟩
      cases hp : pyIntFloat (pyStrip (removeCommas s)) with
      | none =>
        exfalso
        refine hif (mem_validate_intro row _ ?_)
        right; right; right; right; right; left
        rw [heval, hp]
        dsimp only
        exact List.mem_cons_self ..
      | some a =>
        refine ⟨a, rfl, ?_⟩
        by_contra hle
        refine hnp (mem_validate_intro row _ ?_)
        right; right; right; right; right; left
        rw [heval, hp]
        dsimp only
        rw [if_pos (show a ≤ 0 by omega)]
        exact List.mem_cons_self ..
    · rintro ⟨a, hp, hpos⟩
      have hempty : amountErrors row = [] := by
        rw [heval, hp]
        dsimp only
        rw [if_neg (show ¬ a ≤ 0 by omega)]
      constructor
      · intro hmem
        have := amountError_from_stanza row _ (Or.inl rfl) hmem
        rw [hempty] at this
        cases this
      · intro hmem
        have := amountError_from_stanza row _ (Or.inr rfl) hmem
        rw [hempty] at this
        cases this
  · intro n hn
    have heval : amountErrors row
        = (if n ≤ 0 then [VError.amountNotPositive] else []) := by
      unfold amountErrors
      rw [hn]
      simp [isNaLike]
    constructor
    · rintro ⟨hnp, _⟩
      by_contra hle
      refine hnp (mem_validate_intro row _ ?_)
      right; right; right; right; right; left
      rw [heval, if_pos (by omega)]
      exact List.mem_cons_self ..
    · intro hpos
      have hempty : amountErrors row = [] := by
        rw [heval, if_neg (by omega)]
      constructor
      · intro hmem
        have := amountError_from_stanza row _ (Or.inl rfl) hmem
        rw [hempty] at this
        cases this
      · intro hmem
        have := amountError_from_stanza row _ (Or.inr rfl) hmem
        rw [hempty] at this
        cases this

theorem C7_amount_validation_witness :
    ((VError.amountNotPositive ∉ (validate_customer_data sampleRow1).2 ∧
      VError.amountInvalidFormat ∉ (validate_customer_data sampleRow1).2)
      ↔ ∃ a, pyIntFloat (pyStrip (removeCommas (asciiStr "1,000"))) = some a ∧ 0 < a) :=
  (C7_amount_validation sampleRow1).1 (asciiStr "1,000") rfl

/-- The claim's notion, written from the spec's words for the counterexample:
the amount string parses as a positive integer after thousands separators
are removed and whitespace normalized — i.e. what remains is a pure digit
string with positive value. -/
def spec_parsesAsPositiveInteger (s : List JChar) : Prop :=
  pyIsDigit (pyStrip (removeCommas s)) = true ∧ 0 < digitsToNat (pyStrip (removeCommas s))

/-- A valid row whose amount is the fractional string `"3.5"`. -/
def fractionalAmountRow : Row :=
  { sampleRow2 with amount := some (.vStr (asciiStr "3.5")) }

/-- C7 counterexample: `"3.5"` is not a positive-integer numeral, yet the
row passes validation — `int(float("3.5"))` truncates it to 3 — so "passes
exactly when it parses as a positive integer" is false as stated. -/
theorem C7_counterexample :
    (validate_customer_data fractionalAmountRow).1 = true ∧
      ¬ spec_parsesAsPositiveInteger (asciiStr "3.5") ∧
      pyIntFloat (pyStrip (removeCommas (asciiStr "3.5"))) = some 3 := by
  refine ⟨by decide, ?_, by decide⟩
  intro h
  have := h.1
  revert this
  decide

/-! ### Well-formedness of the strings the encoder builds -/

theorem natDigitsAux_lt10 : ∀ (fuel : Nat), ∀ (n d : Nat), d ∈ natDigitsAux fuel n → d < 10 := by
  intro fuel
  induction fuel with
  | zero => intro n d hd; simp [natDigitsAux] at hd
  | succ f ih =>
    intro n d hd
    unfold natDigitsAux at hd
    by_cases h : n < 10
    · rw [if_pos h] at hd
      simp at hd
      omega
    · rw [if_neg h] at hd
      rcases List.mem_append.1 hd with hd | hd
      · exact ih _ _ hd
      · simp at hd
        omega

theorem natToDigitList_lt10 (n : Nat) : ∀ d ∈ natToDigitList n, d < 10 :=
  fun d hd => natDigitsAux_lt10 _ _ _ hd

theorem pyStrOfNat_wf (n : Nat) : WFStr (pyStrOfNat n) := by
  intro c hc
  unfold pyStrOfNat at hc
  rcases List.mem_map.1 hc with ⟨d, hd, rfl⟩
  have := natToDigitList_lt10 n d hd
  exact Or.inl (by omega)

theorem pyStrOfInt_wf (n : Int) : WFStr (pyStrOfInt n) := by
  unfold pyStrOfInt
  split
  · intro c hc
    rcases List.mem_cons.1 hc with rfl | hc
    · exact Or.inl (by norm_num)
    · exact pyStrOfNat_wf _ c hc
  · exact pyStrOfNat_wf _

theorem pyStr_wf (v : Value) (hv : ValueWF v) : WFStr (pyStr v) := by
  cases v with
  | vInt n => exact pyStrOfInt_wf n
  | vStr s => exact hv
  | vNan => exact (by decide : WFStr (pyStr Value.vNan))

theorem mem_pyStrip (s : List JChar) (c : JChar) (hc : c ∈ pyStrip s) : c ∈ s := by
  unfold pyStrip at hc
  rw [List.mem_reverse] at hc
  have h1 := (List.dropWhile_sublist (l := (s.dropWhile isPySpace).reverse) isPySpace).mem hc
  rw [List.mem_reverse] at h1
  exact (List.dropWhile_sublist isPySpace).mem h1

theorem pyStrip_wf (s : List JChar) (hs : WFStr s) : WFStr (pyStrip s) :=
  fun c hc => hs c (mem_pyStrip s c hc)

theorem hankaku_table_values_wf :
    ∀ p ∈ ZENKAKU_TO_HANKAKU, WFStr p.2 := by
  decide

theorem hankaku_wf (s : List JChar) (hs : WFStr s) : WFStr (_to_hankaku_kana s) := by
  intro c hc
  unfold _to_hankaku_kana at hc
  rcases List.mem_flatMap.1 hc with ⟨d, hd, hcd⟩
  cases hl : ZENKAKU_TO_HANKAKU.lookup d with
  | some r =>
    rw [hl] at hcd
    exact hankaku_table_values_wf (d, r) (lookup_mem _ _ _ hl) c hcd
  | none =>
    rw [hl] at hcd
    simp at hcd
    subst hcd
    exact hs _ hd

theorem rowGet_wf (v : Option Value) (dflt : List JChar) (hv : OptValueWF v)
    (hd : WFStr dflt) : WFStr (rowGet v dflt) := by
  cases v with
  | some x => exact pyStr_wf x hv
  | none => exact hd

theorem pyOrdByte_single (s : List JChar) (b : Nat) (h : pyOrdByte s = some b) :
    IsSingleByte b := by
  unfold pyOrdByte at h
  split at h
  · rename_i bArg
    split at h
    · rename_i hlt
      have hb := Option.some.inj h
      subst hb
      exact Or.inl hlt
    · cases h
  · cases h

theorem _validate_numeric_ok (v : Value) (fn : String) (m : Option Nat) (sv : List JChar)
    (h : _validate_numeric v fn m = .ok sv) : sv = pyStrip (pyStr v) := by
  unfold _validate_numeric at h
  split at h
  · cases h
  · dsimp only at h
    split at h
    · cases h
    · split at h
      · split at h
        · cases h
        · exact (Except.ok.inj h).symm
      · exact (Except.ok.inj h).symm

theorem pad_string_some_length (value : List JChar) (len : Nat) (fill align r : List JChar)
    (hv : WFStr value) (hf : WFStr fill) (hf1 : (encodeStr fill).length = 1)
    (h : _pad_string value len fill align = some r) :
    WFStr r ∧ (encodeStr r).length = len := by
  obtain ⟨r', h1, h2, h3⟩ := pad_string_ok value len fill align hv hf hf1
  rw [h] at h1
  have := Option.some.inj h1
  subst this
  exact ⟨h2, h3⟩

theorem bind_ok_elim {ε α β : Type} {e : Except ε α} {f : α → Except ε β} {b : β}
    (h : (e >>= f) = Except.ok b) : ∃ a, e = Except.ok a ∧ f a = Except.ok b := by
  cases e with
  | error err => simp [Bind.bind, Except.bind] at h
  | ok a =>
    refine ⟨a, rfl, ?_⟩
    simpa [Bind.bind, Except.bind] using h

theorem orUnexpected_ok {α : Type} {o : Option α} {a : α}
    (h : orUnexpected o = Except.ok a) : o = some a := by
  cases o with
  | none => simp [orUnexpected] at h
  | some x => simpa [orUnexpected] using h

theorem mapError_ok {ε ε' α : Type} {e : Except ε α} {f : ε → ε'} {a : α}
    (h : e.mapError f = Except.ok a) : e = Except.ok a := by
  cases e with
  | error err => simp [Except.mapError] at h
  | ok x => simpa [Except.mapError] using h

theorem splice_step' (done xs : List Nat) (k k2 pos n : Nat) (fill : Nat)
    (hpos : pos = done.length) (hn : xs.length = n) (hk : k2 = k - n) :
    splice (done ++ List.replicate k fill) pos xs
      = (done ++ xs) ++ List.replicate k2 fill := by
  subst hn
  subst hk
  exact splice_step done k pos xs fill hpos

/-! ### The shape of a produced data record -/

/-- Symbolic execution of `convert_row_to_record`: a successfully produced
record re-encodes to the concatenation of its fields, each of its declared
byte length, at the declared offsets (1+4+15+3+15+4+1+7+30+10+1+10+10+1+8 =
120 bytes). -/
theorem convert_row_shape (row : Row) (rc rn : List JChar) (rec : List JChar)
    (hwf : row.WF) (hok : convert_row_to_record row rc rn = .ok rec) :
    ∃ (bc bn brc brn ch an rnm am c1 c2 : List JChar) (atB ncB ttB : Nat),
      _pad_string (pyStrip (rowGet row.clearing_house (asciiStr "0000"))) 4 strZero strRight
          = some ch ∧
      pyOrdByte (resolveAccountType (pyStrip (rowGet row.account_type (asciiStr "1"))))
          = some atB ∧
      pyOrdByte (resolveNewCode (pyStrip (rowGet row.new_code (asciiStr "1")))) = some ncB ∧
      pyOrdByte (pyStrip (rowGet row.transfer_type (asciiStr "0"))) = some ttB ∧
      (encodeStr bc).length = 4 ∧ (encodeStr bn).length = 15 ∧ (encodeStr brc).length = 3 ∧
      (encodeStr brn).length = 15 ∧ (encodeStr ch).length = 4 ∧ (encodeStr an).length = 7 ∧
      (encodeStr rnm).length = 30 ∧ (encodeStr am).length = 10 ∧
      (encodeStr c1).length = 10 ∧ (encodeStr c2).length = 10 ∧
      encodeStr rec
        = [0x32] ++ encodeStr bc ++ encodeStr bn ++ encodeStr brc ++ encodeStr brn ++
          encodeStr ch ++ [atB] ++ encodeStr an ++ encodeStr rnm ++ encodeStr am ++
          [ncB] ++ encodeStr c1 ++ encodeStr c2 ++ [ttB] ++ List.replicate 8 0x20 := by
  obtain ⟨hwf1, hwf2, hwf3, hwf4, hwf5, hwf6, hwf7, hwf8, hwf9, hwf10, hwf11, hwf12, hwf13⟩
    := hwf
  unfold convert_row_to_record at hok
  dsimp only at hok
  split at hok
  · cases hok
  · rcases bind_ok_elim hok with ⟨bankVal, hBankVal, hok⟩
    rw [orUnexpected_ok hBankVal] at hwf1
    have hBankVal' := orUnexpected_ok hBankVal
    try dsimp only at hok
    rcases bind_ok_elim hok with ⟨bank_code, hBankCode, hok⟩
    have hbc_eq := _validate_numeric_ok _ _ _ _ (mapError_ok hBankCode)
    have hbc_wf : WFStr bank_code := by
      rw [hbc_eq]; exact pyStrip_wf _ (pyStr_wf _ hwf1)
    try dsimp only at hok
    rcases bind_ok_elim hok with ⟨bc, hbc, hok⟩
    obtain ⟨hbcs_wf, hbcs_len⟩ := pad_string_some_length _ _ _ _ _ hbc_wf
      (by decide) (by decide) (orUnexpected_ok hbc)
    try dsimp only at hok
    -- bank name
    have hbn_wf : WFStr (_to_hankaku_kana (pyStrip (rowGet row.bank_name []))) :=
      hankaku_wf _ (pyStrip_wf _ (rowGet_wf _ _ hwf2 (by decide)))
    rcases bind_ok_elim hok with ⟨bn, hbn, hok⟩
    obtain ⟨hbn_wf2, hbn_len⟩ := pad_string_some_length _ _ _ _ _ hbn_wf
      (by decide) (by decide) (orUnexpected_ok hbn)
    try dsimp only at hok
    -- branch code
    rcases bind_ok_elim hok with ⟨branchVal, hBranchVal, hok⟩
    rw [orUnexpected_ok hBranchVal] at hwf3
    try dsimp only at hok
    rcases bind_ok_elim hok with ⟨branch_code, hBranchCode, hok⟩
    have hbrc_eq := _validate_numeric_ok _ _ _ _ (mapError_ok hBranchCode)
    have hbrc_wf : WFStr branch_code := by
      rw [hbrc_eq]; exact pyStrip_wf _ (pyStr_wf _ hwf3)
    try dsimp only at hok
    rcases bind_ok_elim hok with ⟨brc, hbrc, hok⟩
    obtain ⟨hbrcs_wf, hbrcs_len⟩ := pad_string_some_length _ _ _ _ _ hbrc_wf
      (by decide) (by decide) (orUnexpected_ok hbrc)
    try dsimp only at hok
    -- branch name
    have hbrn_wf : WFStr (_to_hankaku_kana (pyStrip (rowGet row.branch_name []))) :=
      hankaku_wf _ (pyStrip_wf _ (rowGet_wf _ _ hwf4 (by decide)))
    rcases bind_ok_elim hok with ⟨brn, hbrn, hok⟩
    obtain ⟨hbrn_wf2, hbrn_len⟩ := pad_string_some_length _ _ _ _ _ hbrn_wf
      (by decide) (by decide) (orUnexpected_ok hbrn)
    try dsimp only at hok
    -- clearing house
    have hch_wf : WFStr (pyStrip (rowGet row.clearing_house (asciiStr "0000"))) :=
      pyStrip_wf _ (rowGet_wf _ _ hwf5 (by decide))
    rcases bind_ok_elim hok with ⟨ch, hch, hok⟩
    obtain ⟨hch_wf2, hch_len⟩ := pad_string_some_length _ _ _ _ _ hch_wf
      (by decide) (by decide) (orUnexpected_ok hch)
    try dsimp only at hok
    -- account type byte
    rcases bind_ok_elim hok with ⟨atB, hatB, hok⟩
    have hatB' := orUnexpected_ok hatB
    have hatB_single := pyOrdByte_single _ _ hatB'
    try dsimp only at hok
    -- account number
    rcases bind_ok_elim hok with ⟨anVal, hAnVal, hok⟩
    rw [orUnexpected_ok hAnVal] at hwf7
    try dsimp only at hok
    rcases bind_ok_elim hok with ⟨account_number, hAn, hok⟩
    have han_eq := _validate_numeric_ok _ _ _ _ (mapError_ok hAn)
    have han_wf : WFStr account_number := by
      rw [han_eq]; exact pyStrip_wf _ (pyStr_wf _ hwf7)
    try dsimp only at hok
    rcases bind_ok_elim hok with ⟨an, han, hok⟩
    obtain ⟨hans_wf, hans_len⟩ := pad_string_some_length _ _ _ _ _ han_wf
      (by decide) (by decide) (orUnexpected_ok han)
    try dsimp only at hok
    -- recipient name
    rcases bind_ok_elim hok with ⟨rnVal, hRnVal, hok⟩
    rw [orUnexpected_ok hRnVal] at hwf8
    try dsimp only at hok
    have hrn_wf : WFStr (_to_hankaku_kana (pyStrip (pyStr rnVal))) :=
      hankaku_wf _ (pyStrip_wf _ (pyStr_wf _ hwf8))
    rcases bind_ok_elim hok with ⟨rnm, hrnm, hok⟩
    obtain ⟨hrnm_wf, hrnm_len⟩ := pad_string_some_length _ _ _ _ _ hrn_wf
      (by decide) (by decide) (orUnexpected_ok hrnm)
    try dsimp only at hok
    -- amount
    rcases bind_ok_elim hok with ⟨amtVal, hAmtVal, hok⟩
    try dsimp only at hok
    rcases bind_ok_elim hok with ⟨amount_value, hAmountValue, hok⟩
    try dsimp only at hok
    rcases bind_ok_elim hok with ⟨am, ham, hok⟩
    obtain ⟨ham_wf, ham_len⟩ := pad_string_some_length _ _ _ _ _ (pyStrOfInt_wf amount_value)
      (by decide) (by decide) (orUnexpected_ok ham)
    try dsimp only at hok
    -- new code byte
    rcases bind_ok_elim hok with ⟨ncB, hncB, hok⟩
    have hncB' := orUnexpected_ok hncB
    have hncB_single := pyOrdByte_single _ _ hncB'
    try dsimp only at hok
    -- customer codes
    have hc1_wf : WFStr (pyStrip (rowGet row.customer_code1 [])) :=
      pyStrip_wf _ (rowGet_wf _ _ hwf11 (by decide))
    rcases bind_ok_elim hok with ⟨c1, hc1, hok⟩
    obtain ⟨hc1_wf2, hc1_len⟩ := pad_string_some_length _ _ _ _ _ hc1_wf
      (by decide) (by decide) (orUnexpected_ok hc1)
    try dsimp only at hok
    have hc2_wf : WFStr (pyStrip (rowGet row.customer_code2 [])) :=
      pyStrip_wf _ (rowGet_wf _ _ hwf12 (by decide))
    rcases bind_ok_elim hok with ⟨c2, hc2, hok⟩
    obtain ⟨hc2_wf2, hc2_len⟩ := pad_string_some_length _ _ _ _ _ hc2_wf
      (by decide) (by decide) (orUnexpected_ok hc2)
    try dsimp only at hok
    -- transfer type byte
    rcases bind_ok_elim hok with ⟨ttB, httB, hok⟩
    have httB' := orUnexpected_ok httB
    have httB_single := pyOrdByte_single _ _ httB'
    try dsimp only at hok
    -- the final decode
    have hdec := orUnexpected_ok hok
    -- normalize the truncating takes away
    rw [List.take_of_length_le (le_of_eq hbn_len), List.take_of_length_le (le_of_eq hbrn_len),
      List.take_of_length_le (le_of_eq hrnm_len), List.take_of_length_le (le_of_eq hc1_len),
      List.take_of_length_le (le_of_eq hc2_len)] at hdec
    -- rewrite the nested splices into one concatenation
    have hs0 : splice (List.replicate 120 0x20) 0 [0x32]
        = [0x32] ++ List.replicate 119 0x20 := by
      have h := splice_step' [] [0x32] 120 119 0 1 0x20 rfl rfl (by norm_num)
      simpa using h
    have hs1 : splice ([0x32] ++ List.replicate 119 0x20) 1 (encodeStr bc)
        = ([0x32] ++ encodeStr bc) ++ List.replicate 115 0x20 :=
      splice_step' ([0x32]) (encodeStr bc) 119 115 1 4 0x20
        (by simp only [List.length_append, List.length_cons, List.length_nil, hbcs_len, hbn_len, hbrcs_len, hbrn_len, hch_len, hans_len, hrnm_len, ham_len, hc1_len, hc2_len]; try omega) hbcs_len (by norm_num)
    have hs2 : splice (([0x32] ++ encodeStr bc) ++ List.replicate 115 0x20) 5 (encodeStr bn)
        = (([0x32] ++ encodeStr bc) ++ encodeStr bn) ++ List.replicate 100 0x20 :=
      splice_step' (([0x32] ++ encodeStr bc)) (encodeStr bn) 115 100 5 15 0x20
        (by simp only [List.length_append, List.length_cons, List.length_nil, hbcs_len, hbn_len, hbrcs_len, hbrn_len, hch_len, hans_len, hrnm_len, ham_len, hc1_len, hc2_len]; try omega) hbn_len (by norm_num)
    have hs3 : splice ((([0x32] ++ encodeStr bc) ++ encodeStr bn) ++ List.replicate 100 0x20) 20 (encodeStr brc)
        = ((([0x32] ++ encodeStr bc) ++ encodeStr bn) ++ encodeStr brc) ++ List.replicate 97 0x20 :=
      splice_step' ((([0x32] ++ encodeStr bc) ++ encodeStr bn)) (encodeStr brc) 100 97 20 3 0x20
        (by simp only [List.length_append, List.length_cons, List.length_nil, hbcs_len, hbn_len, hbrcs_len, hbrn_len, hch_len, hans_len, hrnm_len, ham_len, hc1_len, hc2_len]; try omega) hbrcs_len (by norm_num)
    have hs4 : splice (((([0x32] ++ encodeStr bc) ++ encodeStr bn) ++ encodeStr brc) ++ List.replicate 97 0x20) 23 (encodeStr brn)
        = (((([0x32] ++ encodeStr bc) ++ encodeStr bn) ++ encodeStr brc) ++ encodeStr brn) ++ List.replicate 82 0x20 :=
      splice_step' (((([0x32] ++ encodeStr bc) ++ encodeStr bn) ++ encodeStr brc)) (encodeStr brn) 97 82 23 15 0x20
        (by simp only [List.length_append, List.length_cons, List.length_nil, hbcs_len, hbn_len, hbrcs_len, hbrn_len, hch_len, hans_len, hrnm_len, ham_len, hc1_len, hc2_len]; try omega) hbrn_len (by norm_num)
    have hs5 : splice ((((([0x32] ++ encodeStr bc) ++ encodeStr bn) ++ encodeStr brc) ++ encodeStr brn) ++ List.replicate 82 0x20) 38 (encodeStr ch)
        = ((((([0x32] ++ encodeStr bc) ++ encodeStr bn) ++ encodeStr brc) ++ encodeStr brn) ++ encodeStr ch) ++ List.replicate 78 0x20 :=
      splice_step' ((((([0x32] ++ encodeStr bc) ++ encodeStr bn) ++ encodeStr brc) ++ encodeStr brn)) (encodeStr ch) 82 78 38 4 0x20
        (by simp only [List.length_append, List.length_cons, List.length_nil, hbcs_len, hbn_len, hbrcs_len, hbrn_len, hch_len, hans_len, hrnm_len, ham_len, hc1_len, hc2_len]; try omega) hch_len (by norm_num)
    have hs6 : splice (((((([0x32] ++ encodeStr bc) ++ encodeStr bn) ++ encodeStr brc) ++ encodeStr brn) ++ encodeStr ch) ++ List.replicate 78 0x20) 42 ([atB])
        = (((((([0x32] ++ encodeStr bc) ++ encodeStr bn) ++ encodeStr brc) ++ encodeStr brn) ++ encodeStr ch) ++ [atB]) ++ List.replicate 77 0x20 :=
      splice_step' (((((([0x32] ++ encodeStr bc) ++ encodeStr bn) ++ encodeStr brc) ++ encodeStr brn) ++ encodeStr ch)) ([atB]) 78 77 42 1 0x20
        (by simp only [List.length_append, List.length_cons, List.length_nil, hbcs_len, hbn_len, hbrcs_len, hbrn_len, hch_len, hans_len, hrnm_len, ham_len, hc1_len, hc2_len]; try omega) rfl (by norm_num)
    have hs7 : splice ((((((([0x32] ++ encodeStr bc) ++ encodeStr bn) ++ encodeStr brc) ++ encodeStr brn) ++ encodeStr ch) ++ [atB]) ++ List.replicate 77 0x20) 43 (encodeStr an)
        = ((((((([0x32] ++ encodeStr bc) ++ encodeStr bn) ++ encodeStr brc) ++ encodeStr brn) ++ encodeStr ch) ++ [atB]) ++ encodeStr an) ++ List.replicate 70 0x20 :=
      splice_step' ((((((([0x32] ++ encodeStr bc) ++ encodeStr bn) ++ encodeStr brc) ++ encodeStr brn) ++ encodeStr ch) ++ [atB])) (encodeStr an) 77 70 43 7 0x20
        (by simp only [List.length_append, List.length_cons, List.length_nil, hbcs_len, hbn_len, hbrcs_len, hbrn_len, hch_len, hans_len, hrnm_len, ham_len, hc1_len, hc2_len]; try omega) hans_len (by norm_num)
    have hs8 : splice (((((((([0x32] ++ encodeStr bc) ++ encodeStr bn) ++ encodeStr brc) ++ encodeStr brn) ++ encodeStr ch) ++ [atB]) ++ encodeStr an) ++ List.replicate 70 0x20) 50 (encodeStr rnm)
        = (((((((([0x32] ++ encodeStr bc) ++ encodeStr bn) ++ encodeStr brc) ++ encodeStr brn) ++ encodeStr ch) ++ [atB]) ++ encodeStr an) ++ encodeStr rnm) ++ List.replicate 40 0x20 :=
      splice_step' (((((((([0x32] ++ encodeStr bc) ++ encodeStr bn) ++ encodeStr brc) ++ encodeStr brn) ++ encodeStr ch) ++ [atB]) ++ encodeStr an)) (encodeStr rnm) 70 40 50 30 0x20
        (by simp only [List.length_append, List.length_cons, List.length_nil, hbcs_len, hbn_len, hbrcs_len, hbrn_len, hch_len, hans_len, hrnm_len, ham_len, hc1_len, hc2_len]; try omega) hrnm_len (by norm_num)
    have hs9 : splice ((((((((([0x32] ++ encodeStr bc) ++ encodeStr bn) ++ encodeStr brc) ++ encodeStr brn) ++ encodeStr ch) ++ [atB]) ++ encodeStr an) ++ encodeStr rnm) ++ List.replicate 40 0x20) 80 (encodeStr am)
        = ((((((((([0x32] ++ encodeStr bc) ++ encodeStr bn) ++ encodeStr brc) ++ encodeStr brn) ++ encodeStr ch) ++ [atB]) ++ encodeStr an) ++ encodeStr rnm) ++ encodeStr am) ++ List.replicate 30 0x20 :=
      splice_step' ((((((((([0x32] ++ encodeStr bc) ++ encodeStr bn) ++ encodeStr brc) ++ encodeStr brn) ++ encodeStr ch) ++ [atB]) ++ encodeStr an) ++ encodeStr rnm)) (encodeStr am) 40 30 80 10 0x20
        (by simp only [List.length_append, List.length_cons, List.length_nil, hbcs_len, hbn_len, hbrcs_len, hbrn_len, hch_len, hans_len, hrnm_len, ham_len, hc1_len, hc2_len]; try omega) ham_len (by norm_num)
    have hs10 : splice (((((((((([0x32] ++ encodeStr bc) ++ encodeStr bn) ++ encodeStr brc) ++ encodeStr brn) ++ encodeStr ch) ++ [atB]) ++ encodeStr an) ++ encodeStr rnm) ++ encodeStr am) ++ List.replicate 30 0x20) 90 ([ncB])
        = (((((((((([0x32] ++ encodeStr bc) ++ encodeStr bn) ++ encodeStr brc) ++ encodeStr brn) ++ encodeStr ch) ++ [atB]) ++ encodeStr an) ++ encodeStr rnm) ++ encodeStr am) ++ [ncB]) ++ List.replicate 29 0x20 :=
      splice_step' (((((((((([0x32] ++ encodeStr bc) ++ encodeStr bn) ++ encodeStr brc) ++ encodeStr brn) ++ encodeStr ch) ++ [atB]) ++ encodeStr an) ++ encodeStr rnm) ++ encodeStr am)) ([ncB]) 30 29 90 1 0x20
        (by simp only [List.length_append, List.length_cons, List.length_nil, hbcs_len, hbn_len, hbrcs_len, hbrn_len, hch_len, hans_len, hrnm_len, ham_len, hc1_len, hc2_len]; try omega) rfl (by norm_num)
    have hs11 : splice ((((((((((([0x32] ++ encodeStr bc) ++ encodeStr bn) ++ encodeStr brc) ++ encodeStr brn) ++ encodeStr ch) ++ [atB]) ++ encodeStr an) ++ encodeStr rnm) ++ encodeStr am) ++ [ncB]) ++ List.replicate 29 0x20) 91 (encodeStr c1)
        = ((((((((((([0x32] ++ encodeStr bc) ++ encodeStr bn) ++ encodeStr brc) ++ encodeStr brn) ++ encodeStr ch) ++ [atB]) ++ encodeStr an) ++ encodeStr rnm) ++ encodeStr am) ++ [ncB]) ++ encodeStr c1) ++ List.replicate 19 0x20 :=
      splice_step' ((((((((((([0x32] ++ encodeStr bc) ++ encodeStr bn) ++ encodeStr brc) ++ encodeStr brn) ++ encodeStr ch) ++ [atB]) ++ encodeStr an) ++ encodeStr rnm) ++ encodeStr am) ++ [ncB])) (encodeStr c1) 29 19 91 10 0x20
        (by simp only [List.length_append, List.length_cons, List.length_nil, hbcs_len, hbn_len, hbrcs_len, hbrn_len, hch_len, hans_len, hrnm_len, ham_len, hc1_len, hc2_len]; try omega) hc1_len (by norm_num)
    have hs12 : splice (((((((((((([0x32] ++ encodeStr bc) ++ encodeStr bn) ++ encodeStr brc) ++ encodeStr brn) ++ encodeStr ch) ++ [atB]) ++ encodeStr an) ++ encodeStr rnm) ++ encodeStr am) ++ [ncB]) ++ encodeStr c1) ++ List.replicate 19 0x20) 101 (encodeStr c2)
        = (((((((((((([0x32] ++ encodeStr bc) ++ encodeStr bn) ++ encodeStr brc) ++ encodeStr brn) ++ encodeStr ch) ++ [atB]) ++ encodeStr an) ++ encodeStr rnm) ++ encodeStr am) ++ [ncB]) ++ encodeStr c1) ++ encodeStr c2) ++ List.replicate 9 0x20 :=
      splice_step' (((((((((((([0x32] ++ encodeStr bc) ++ encodeStr bn) ++ encodeStr brc) ++ encodeStr brn) ++ encodeStr ch) ++ [atB]) ++ encodeStr an) ++ encodeStr rnm) ++ encodeStr am) ++ [ncB]) ++ encodeStr c1)) (encodeStr c2) 19 9 101 10 0x20
        (by simp only [List.length_append, List.length_cons, List.length_nil, hbcs_len, hbn_len, hbrcs_len, hbrn_len, hch_len, hans_len, hrnm_len, ham_len, hc1_len, hc2_len]; try omega) hc2_len (by norm_num)
    have hs13 : splice ((((((((((((([0x32] ++ encodeStr bc) ++ encodeStr bn) ++ encodeStr brc) ++ encodeStr brn) ++ encodeStr ch) ++ [atB]) ++ encodeStr an) ++ encodeStr rnm) ++ encodeStr am) ++ [ncB]) ++ encodeStr c1) ++ encodeStr c2) ++ List.replicate 9 0x20) 111 ([ttB])
        = ((((((((((((([0x32] ++ encodeStr bc) ++ encodeStr bn) ++ encodeStr brc) ++ encodeStr brn) ++ encodeStr ch) ++ [atB]) ++ encodeStr an) ++ encodeStr rnm) ++ encodeStr am) ++ [ncB]) ++ encodeStr c1) ++ encodeStr c2) ++ [ttB]) ++ List.replicate 8 0x20 :=
      splice_step' ((((((((((((([0x32] ++ encodeStr bc) ++ encodeStr bn) ++ encodeStr brc) ++ encodeStr brn) ++ encodeStr ch) ++ [atB]) ++ encodeStr an) ++ encodeStr rnm) ++ encodeStr am) ++ [ncB]) ++ encodeStr c1) ++ encodeStr c2)) ([ttB]) 9 8 111 1 0x20
        (by simp only [List.length_append, List.length_cons, List.length_nil, hbcs_len, hbn_len, hbrcs_len, hbrn_len, hch_len, hans_len, hrnm_len, ham_len, hc1_len, hc2_len]; try omega) rfl (by norm_num)
    rw [hs0, hs1, hs2, hs3, hs4, hs5, hs6, hs7, hs8, hs9, hs10, hs11, hs12, hs13] at hdec
    have henc := encode_decode _ _ hdec
    refine ⟨bc, bn, brc, brn, ch, an, rnm, am, c1, c2, atB, ncB, ttB,
      orUnexpected_ok hch, hatB', hncB', httB',
      hbcs_len, hbn_len, hbrcs_len, hbrn_len, hch_len, hans_len, hrnm_len,
      ham_len, hc1_len, hc2_len, ?_⟩
    rw [henc]

theorem obind_ok_elim {α β : Type} {o : Option α} {f : α → Option β} {b : β}
    (h : (o >>= f) = some b) : ∃ a, o = some a ∧ f a = some b := by
  cases o with
  | none => simp at h
  | some a => exact ⟨a, rfl, by simpa using h⟩

theorem strftimeMMDD_length (m d : Nat) : (strftimeMMDD m d).length = 4 := rfl

/-- A produced header record re-encodes to exactly 120 bytes. -/
theorem create_header_record_length (c m d : Nat) (rec : List JChar)
    (h : create_header_record c m d = some rec) : (encodeStr rec).length = 120 := by
  unfold create_header_record at h
  rw [show _pad_string [] 10 strSpace strLeft
      = some (List.replicate 10 (JChar.single 0x20)) by decide] at h
  rw [show _pad_string (_to_hankaku_kana []) 40 strSpace strLeft
      = some (List.replicate 40 (JChar.single 0x20)) by decide] at h
  rw [show _pad_string (_to_hankaku_kana []) 15 strSpace strLeft
      = some (List.replicate 15 (JChar.single 0x20)) by decide] at h
  simp only [Option.bind_eq_bind, Option.some_bind] at h
  rw [encode_decode _ _ h]
  simp only [splice, List.length_append, List.length_take, List.length_drop,
    List.length_replicate, List.length_cons, List.length_nil, encodeStr_replicate_single,
    strftimeMMDD_length,
    show (encodeStr (asciiStr "0000")).length = 4 from by decide,
    show (encodeStr (asciiStr "000")).length = 3 from by decide,
    show (encodeStr (asciiStr "0000000")).length = 7 from by decide]
  omega

/-- A produced trailer record re-encodes to the type byte `"8"`, the 6-byte
count field, the 12-byte amount field, and 101 spaces. -/
theorem create_trailer_shape (c : Nat) (t : Int) (rec : List JChar)
    (h : create_trailer_record c t = some rec) :
    ∃ cs ts, _pad_string (pyStrOfNat c) 6 strZero strRight = some cs ∧
      _pad_string (pyStrOfInt t) 12 strZero strRight = some ts ∧
      (encodeStr cs).length = 6 ∧ (encodeStr ts).length = 12 ∧
      encodeStr rec
        = [0x38] ++ encodeStr cs ++ encodeStr ts ++ List.replicate 101 0x20 := by
  unfold create_trailer_record at h
  dsimp only at h
  rcases obind_ok_elim h with ⟨cs, hcs, h⟩
  rcases obind_ok_elim h with ⟨ts, hts, h⟩
  obtain ⟨_, hcs_len⟩ := pad_string_some_length _ _ _ _ _ (pyStrOfNat_wf c)
    (by decide) (by decide) hcs
  obtain ⟨_, hts_len⟩ := pad_string_some_length _ _ _ _ _ (pyStrOfInt_wf t)
    (by decide) (by decide) hts
  have hs0 : splice (List.replicate 120 0x20) 0 [0x38]
      = [0x38] ++ List.replicate 119 0x20 := by
    have hstep := splice_step' [] [0x38] 120 119 0 1 0x20 rfl rfl (by norm_num)
    simpa using hstep
  have hs1 : splice ([0x38] ++ List.replicate 119 0x20) 1 (encodeStr cs)
      = ([0x38] ++ encodeStr cs) ++ List.replicate 113 0x20 :=
    splice_step' [0x38] (encodeStr cs) 119 113 1 6 0x20
      (by simp) hcs_len (by norm_num)
  have hs2 : splice (([0x38] ++ encodeStr cs) ++ List.replicate 113 0x20) 7 (encodeStr ts)
      = (([0x38] ++ encodeStr cs) ++ encodeStr ts) ++ List.replicate 101 0x20 :=
    splice_step' ([0x38] ++ encodeStr cs) (encodeStr ts) 113 101 7 12 0x20
      (by simp [hcs_len]) hts_len (by norm_num)
  rw [hs0, hs1, hs2] at h
  refine ⟨cs, ts, hcs, hts, hcs_len, hts_len, ?_⟩
  rw [encode_decode _ _ h]

/-- The end record is a constant: the count argument is ignored, and the
record is the type byte `"9"` followed by 119 spaces. -/
theorem create_end_record_eval (c : Nat) :
    create_end_record c = some (JChar.single 0x39 :: List.replicate 119 spaceJ) := by
  show decodeBytes (splice (List.replicate 120 0x20) 0 [0x39])
      = some (JChar.single 0x39 :: List.replicate 119 spaceJ)
  decide

/-- C1: every record the converter produces — each data record returned by
`convert_row_to_record` (for a well-formed row) and the header, trailer and
end records — re-encodes under Shift-JIS to exactly 120 bytes. -/
theorem C1_all_records_120_bytes :
    (∀ (row : Row) (rc rn rec : List JChar), Row.WF row →
      convert_row_to_record row rc rn = .ok rec → (encodeStr rec).length = 120) ∧
    (∀ (c m d : Nat) (rec : List JChar), create_header_record c m d = some rec →
      (encodeStr rec).length = 120) ∧
    (∀ (c : Nat) (t : Int) (rec : List JChar), create_trailer_record c t = some rec →
      (encodeStr rec).length = 120) ∧
    (∀ (c : Nat) (rec : List JChar), create_end_record c = some rec →
      (encodeStr rec).length = 120) := by
  refine ⟨?_, ?_, ?_, ?_⟩
  · intro row rc rn rec hwf hok
    obtain ⟨bc, bn, brc, brn, ch, an, rnm, am, c1, c2, atB, ncB, ttB, _, _, _, _,
      e1, e2, e3, e4, e5, e6, e7, e8, e9, e10, henc⟩ := convert_row_shape row rc rn rec hwf hok
    rw [henc]
    simp only [List.length_append, List.length_cons, List.length_nil, List.length_replicate,
      e1, e2, e3, e4, e5, e6, e7, e8, e9, e10]
  · intro c m d rec h
    exact create_header_record_length c m d rec h
  · intro c t rec h
    obtain ⟨cs, ts, _, _, hcl, htl, henc⟩ := create_trailer_shape c t rec h
    rw [henc]
    simp only [List.length_append, List.length_cons, List.length_nil, List.length_replicate,
      hcl, htl]
  · intro c rec h
    rw [create_end_record_eval c] at h
    have := Option.some.inj h
    subst this
    decide

theorem C1_all_records_120_bytes_witness :
    Except.map (fun r => (encodeStr r).length) (convert_row_to_record sampleRow1 [] [])
        = Except.ok 120 ∧
      Option.map (fun r => (encodeStr r).length) (create_header_record 2 10 12)
        = some 120 ∧
      Option.map (fun r => (encodeStr r).length) (create_trailer_record 2 6000)
        = some 120 ∧
      Option.map (fun r => (encodeStr r).length) (create_end_record 4) = some 120 := by
  refine ⟨?_, ?_, ?_, ?_⟩
  · cases hh : convert_row_to_record sampleRow1 [] [] with
    | error e =>
      have hok : (convert_row_to_record sampleRow1 [] []).isOk = true := by decide
      rw [hh] at hok
      simp [Except.isOk, Except.toBool] at hok
    | ok r =>
      have h120 := C1_all_records_120_bytes.1 sampleRow1 [] [] r (by decide) hh
      simp [Except.map, h120]
  · cases hh : create_header_record 2 10 12 with
    | none =>
      have hok : (create_header_record 2 10 12).isSome = true := by decide
      rw [hh] at hok
      simp at hok
    | some r =>
      have h120 := C1_all_records_120_bytes.2.1 2 10 12 r hh
      simp [h120]
  · cases hh : create_trailer_record 2 6000 with
    | none =>
      have hok : (create_trailer_record 2 6000).isSome = true := by decide
      rw [hh] at hok
      simp at hok
    | some r =>
      have h120 := C1_all_records_120_bytes.2.2.1 2 6000 r hh
      simp [h120]
  · cases hh : create_end_record 4 with
    | none =>
      have hok : (create_end_record 4).isSome = true := by decide
      rw [hh] at hok
      simp at hok
    | some r =>
      have h120 := C1_all_records_120_bytes.2.2.2 4 r hh
      simp [h120]

theorem drop_append_chain (a b : List Nat) (n m k : Nat) (ha : a.length = k)
    (hm : m = n - k) (hle : k ≤ n) : (a ++ b).drop n = b.drop m := by
  subst hm
  subst ha
  rw [List.drop_append_eq_append_drop, List.drop_eq_nil_of_le hle, List.nil_append]

theorem take_append_len (a b : List Nat) (n : Nat) (ha : a.length = n) :
    (a ++ b).take n = a := by
  subst ha
  exact List.take_left a b

/-! ### Claim C10: encoder defaults for omitted optional fields -/

/-- C10: for every validated row that omits the optional fields, the data
record encoder substitutes fixed defaults rather than failing: clearing
house `"0000"` (bytes 38-41), account category `"1"` = ordinary (byte 42,
also the fallback `resolveAccountType` uses for any unrecognized value),
new/continuing flag `"1"` (byte 90, also the fallback for anything other
than `"1"`/`"2"`), transfer-type flag `"0"` (byte 111), and space-filled
identification and filler fields (bytes 112-119). -/
theorem C10_optional_field_defaults :
    (∀ (row : Row) (rc rn rec : List JChar), Row.WF row →
      row.clearing_house = none → row.account_type = none → row.new_code = none →
      row.transfer_type = none →
      convert_row_to_record row rc rn = .ok rec →
      ((encodeStr rec).drop 38).take 4 = [0x30, 0x30, 0x30, 0x30] ∧
      ((encodeStr rec).drop 42).take 1 = [0x31] ∧
      ((encodeStr rec).drop 90).take 1 = [0x31] ∧
      ((encodeStr rec).drop 111).take 1 = [0x30] ∧
      (encodeStr rec).drop 112 = List.replicate 8 0x20) ∧
    (∀ s, ¬ (s = strFutsu ∨ pyLower s = asciiStr "futsu") →
      ¬ (s = strToza ∨ pyLower s = asciiStr "toza") →
      ¬ (s = strChochiku ∨ pyLower s = asciiStr "chochiku") →
      s ∉ [asciiStr "1", asciiStr "2", asciiStr "4", asciiStr "9"] →
      resolveAccountType s = asciiStr "1") ∧
    (∀ s, s ∉ [asciiStr "1", asciiStr "2"] → resolveNewCode s = asciiStr "1") := by
  refine ⟨?_, ?_, ?_⟩
  · intro row rc rn rec hwf hch0 hat0 hnc0 htt0 hok
    obtain ⟨bc, bn, brc, brn, ch, an, rnm, am, c1, c2, atB, ncB, ttB, hch, hatB, hncB, httB,
      e1, e2, e3, e4, e5, e6, e7, e8, e9, e10, henc⟩ := convert_row_shape row rc rn rec hwf hok
    simp only [List.append_assoc] at henc
    rw [hch0] at hch
    rw [hat0] at hatB
    rw [hnc0] at hncB
    rw [htt0] at httB
    have hch' : ch = asciiStr "0000" := by
      have hv : _pad_string (pyStrip (rowGet none (asciiStr "0000"))) 4 strZero strRight
          = some (asciiStr "0000") := by decide
      rw [hv] at hch
      exact (Option.some.inj hch).symm
    have hat' : atB = 0x31 := by
      have hv : pyOrdByte (resolveAccountType (pyStrip (rowGet none (asciiStr "1"))))
          = some 0x31 := by decide
      rw [hv] at hatB
      exact (Option.some.inj hatB).symm
    have hnc' : ncB = 0x31 := by
      have hv : pyOrdByte (resolveNewCode (pyStrip (rowGet none (asciiStr "1"))))
          = some 0x31 := by decide
      rw [hv] at hncB
      exact (Option.some.inj hncB).symm
    have htt' : ttB = 0x30 := by
      have hv : pyOrdByte (pyStrip (rowGet none (asciiStr "0"))) = some 0x30 := by decide
      rw [hv] at httB
      exact (Option.some.inj httB).symm
    subst hch' hat' hnc' htt'
    have h38 : (encodeStr rec).drop 38
        = encodeStr (asciiStr "0000") ++ ([0x31] ++ (encodeStr an ++ (encodeStr rnm ++
          (encodeStr am ++ ([0x31] ++ (encodeStr c1 ++ (encodeStr c2 ++
          ([0x30] ++ List.replicate 8 0x20)))))))) := by
      rw [henc]
      rw [drop_append_chain [0x32] _ 38 37 1 rfl (by norm_num) (by norm_num)]
      rw [drop_append_chain (encodeStr bc) _ 37 33 4 e1 (by norm_num) (by norm_num)]
      rw [drop_append_chain (encodeStr bn) _ 33 18 15 e2 (by norm_num) (by norm_num)]
      rw [drop_append_chain (encodeStr brc) _ 18 15 3 e3 (by norm_num) (by norm_num)]
      rw [drop_append_chain (encodeStr brn) _ 15 0 15 e4 (by norm_num) (by norm_num)]
      rw [List.drop_zero]
    have h42 : (encodeStr rec).drop 42
        = [0x31] ++ (encodeStr an ++ (encodeStr rnm ++ (encodeStr am ++ ([0x31] ++
          (encodeStr c1 ++ (encodeStr c2 ++ ([0x30] ++ List.replicate 8 0x20))))))) := by
      rw [show (42 : Nat) = 38 + 4 by norm_num, ← List.drop_drop, h38]
      rw [drop_append_chain (encodeStr (asciiStr "0000")) _ 4 0 4 (by decide)
        (by norm_num) (by norm_num)]
      rw [List.drop_zero]
    have h90 : (encodeStr rec).drop 90
        = [0x31] ++ (encodeStr c1 ++ (encodeStr c2 ++ ([0x30] ++ List.replicate 8 0x20))) := by
      rw [show (90 : Nat) = 42 + 48 by norm_num, ← List.drop_drop, h42]
      rw [drop_append_chain [0x31] _ 48 47 1 rfl (by norm_num) (by norm_num)]
      rw [drop_append_chain (encodeStr an) _ 47 40 7 e6 (by norm_num) (by norm_num)]
      rw [drop_append_chain (encodeStr rnm) _ 40 10 30 e7 (by norm_num) (by norm_num)]
      rw [drop_append_chain (encodeStr am) _ 10 0 10 e8 (by norm_num) (by norm_num)]
      rw [List.drop_zero]
    have h111 : (encodeStr rec).drop 111 = [0x30] ++ List.replicate 8 0x20 := by
      rw [show (111 : Nat) = 90 + 21 by norm_num, ← List.drop_drop, h90]
      rw [drop_append_chain [0x31] _ 21 20 1 rfl (by norm_num) (by norm_num)]
      rw [drop_append_chain (encodeStr c1) _ 20 10 10 e9 (by norm_num) (by norm_num)]
      rw [drop_append_chain (encodeStr c2) _ 10 0 10 e10 (by norm_num) (by norm_num)]
      rw [List.drop_zero]
    have h112 : (encodeStr rec).drop 112 = List.replicate 8 0x20 := by
      rw [show (112 : Nat) = 111 + 1 by norm_num, ← List.drop_drop, h111]
      rw [drop_append_chain [0x30] _ 1 0 1 rfl (by norm_num) (by norm_num)]
      rw [List.drop_zero]
    refine ⟨?_, ?_, ?_, ?_, h112⟩
    · rw [h38, take_append_len _ _ 4 (by decide)]
      decide
    · rw [h42, take_append_len [0x31] _ 1 rfl]
    · rw [h90, take_append_len [0x31] _ 1 rfl]
    · rw [h111, take_append_len [0x30] _ 1 rfl]
  · intro s h1 h2 h3 h4
    unfold resolveAccountType
    rw [if_neg h1, if_neg h2, if_neg h3, if_pos h4]
  · intro s h1
    unfold resolveNewCode
    rw [if_pos h1]

/-- A valid row omitting every optional field. -/
def defaultsRow : Row := { badAmountRow with amount := some (.vInt 500) }

theorem C10_optional_field_defaults_witness :
    (Except.map (fun rec => (((encodeStr rec).drop 38).take 4,
        ((encodeStr rec).drop 42).take 1, ((encodeStr rec).drop 90).take 1,
        ((encodeStr rec).drop 111).take 1, (encodeStr rec).drop 112))
        (convert_row_to_record defaultsRow [] [])
      = Except.ok ([0x30, 0x30, 0x30, 0x30], [0x31], [0x31], [0x30],
          List.replicate 8 0x20)) ∧
    resolveAccountType (asciiStr "unknown") = asciiStr "1" ∧
    resolveNewCode (asciiStr "3") = asciiStr "1" := by
  refine ⟨?_, ?_, ?_⟩
  · cases hh : convert_row_to_record defaultsRow [] [] with
    | error e =>
      have hok : (convert_row_to_record defaultsRow [] []).isOk = true := by decide
      rw [hh] at hok
      simp [Except.isOk, Except.toBool] at hok
    | ok rec =>
      obtain ⟨s1, s2, s3, s4, s5⟩ := (C10_optional_field_defaults.1) defaultsRow
        [] [] rec (by decide) rfl rfl rfl rfl hh
      simp [Except.map, s1, s2, s3, s4, s5]
  · exact (C10_optional_field_defaults.2.1) (asciiStr "unknown")
      (by decide) (by decide) (by decide) (by decide)
  · exact (C10_optional_field_defaults.2.2) (asciiStr "3") (by decide)

/-! ### Composer loop lemmas -/

/-- The failing rows of a batch, tagged with their 1-based source ordinal
(`idx + 2`: the header row plus 0-based indexing) and the error raised. -/
def failingRows (requester_code requester_name : List JChar) :
    List Row → Nat → List (Nat × CErr)
  | [], _ => []
  | row :: rest, idx =>
    match convert_row_to_record row requester_code requester_name with
    | .ok _ => failingRows requester_code requester_name rest (idx + 1)
    | .error e => (idx + 2, e) :: failingRows requester_code requester_name rest (idx + 1)

theorem convertLoop_errors_eq (rc rn : List JChar) :
    ∀ (rows : List Row) (idx : Nat),
      (convertLoop rc rn rows idx).2.2 = failingRows rc rn rows idx
  | [], _ => rfl
  | row :: rest, idx => by
    unfold convertLoop failingRows
    cases convert_row_to_record row rc rn with
    | ok rec => exact convertLoop_errors_eq rc rn rest (idx + 1)
    | error e =>
      dsimp only
      rw [convertLoop_errors_eq rc rn rest (idx + 1)]

theorem convertLoop_records_empty (rc rn : List JChar) :
    ∀ (rows : List Row) (idx : Nat),
      (convertLoop rc rn rows idx).1 = []
        ↔ ∀ r ∈ rows, (convert_row_to_record r rc rn).isOk = false
  | [], idx => by simp [convertLoop]
  | row :: rest, idx => by
    unfold convertLoop
    cases hc : convert_row_to_record row rc rn with
    | ok rec =>
      dsimp only
      constructor
      · intro h
        cases h
      · intro h
        have := h row (List.mem_cons_self ..)
        rw [hc] at this
        simp [Except.isOk, Except.toBool] at this
    | error e =>
      dsimp only
      rw [convertLoop_records_empty rc rn rest (idx + 1)]
      constructor
      · intro h r hr
        rcases List.mem_cons.1 hr with rfl | hr
        · rw [hc]; rfl
        · exact h r hr
      · intro h r hr
        exact h r (List.mem_cons_of_mem _ hr)

theorem failingRows_eq_nil (rc rn : List JChar) :
    ∀ (rows : List Row) (idx : Nat),
      failingRows rc rn rows idx = []
        ↔ ∀ r ∈ rows, (convert_row_to_record r rc rn).isOk = true
  | [], idx => by simp [failingRows]
  | row :: rest, idx => by
    unfold failingRows
    cases hc : convert_row_to_record row rc rn with
    | ok rec =>
      dsimp only
      rw [failingRows_eq_nil rc rn rest (idx + 1)]
      constructor
      · intro h r hr
        rcases List.mem_cons.1 hr with rfl | hr
        · rw [hc]; rfl
        · exact h r hr
      · intro h r hr
        exact h r (List.mem_cons_of_mem _ hr)
    | error e =>
      dsimp only
      constructor
      · intro h
        cases h
      · intro h
        have := h row (List.mem_cons_self ..)
        rw [hc] at this
        simp [Except.isOk, Except.toBool] at this

theorem convertLoop_all_ok (rc rn : List JChar) :
    ∀ (rows : List Row) (idx : Nat),
      (∀ r ∈ rows, (convert_row_to_record r rc rn).isOk = true) →
      (convertLoop rc rn rows idx).2.2 = [] ∧
      (convertLoop rc rn rows idx).1.length = rows.length ∧
      (convertLoop rc rn rows idx).2.1 = (rows.map totalAmountContribution).sum
  | [], idx, _ => by simp [convertLoop]
  | row :: rest, idx, h => by
    have hrest := convertLoop_all_ok rc rn rest (idx + 1)
      (fun r hr => h r (List.mem_cons_of_mem _ hr))
    have hhead := h row (List.mem_cons_self ..)
    unfold convertLoop
    cases hc : convert_row_to_record row rc rn with
    | ok rec =>
      dsimp only
      refine ⟨hrest.1, ?_, ?_⟩
      · simp [hrest.2.1]
      · simp [hrest.2.2]
    | error e =>
      rw [hc] at hhead
      simp [Except.isOk, Except.toBool] at hhead

/-! ### Claim C3: invalid rows abort the batch -/

/-- C3 (amended): if any input row fails, batch composition produces no
records (the composer returns an error, so nothing reaches the writer and
no file is written).  When at least one row also succeeds, the error lists
the failing rows by their 1-based source ordinal (idx + 2, accounting for
the header row) with their reasons — but only the FIRST TEN failures are
reported.  When every row fails, a generic no-convertible-data error is
raised that names no rows at all (see the counterexample). -/
theorem C3_invalid_rows_abort (rows : List Row) (rc rn : List JChar) (m d : Nat)
    (hsome : ∃ r ∈ rows, (convert_row_to_record r rc rn).isOk = false) :
    (∀ recs, convert_excel_to_zengin rows rc rn m d ≠ .ok recs) ∧
    ((∃ r ∈ rows, (convert_row_to_record r rc rn).isOk = true) →
      convert_excel_to_zengin rows rc rn m d
        = .error (.conversionErrors ((failingRows rc rn rows 0).take 10))) ∧
    ((∀ r ∈ rows, (convert_row_to_record r rc rn).isOk = false) →
      convert_excel_to_zengin rows rc rn m d = .error .noConvertibleData) := by
  obtain ⟨r0, hr0, hr0bad⟩ := hsome
  have hne : rows.isEmpty = false := by
    cases rows with
    | nil => cases hr0
    | cons a l => rfl
  have herr_ne : failingRows rc rn rows 0 ≠ [] := by
    intro hnil
    have := (failingRows_eq_nil rc rn rows 0).1 hnil r0 hr0
    rw [hr0bad] at this
    cases this
  constructor
  · intro recs hok
    unfold convert_excel_to_zengin at hok
    rw [hne] at hok
    simp only [Bool.false_eq_true, if_false] at hok
    by_cases hrec : (convertLoop rc rn rows 0).1.isEmpty
    · rw [if_pos hrec] at hok
      cases hok
    · rw [if_neg hrec] at hok
      have : ¬ (convertLoop rc rn rows 0).2.2.isEmpty = true := by
        rw [List.isEmpty_iff, convertLoop_errors_eq]
        exact herr_ne
      rw [if_pos this] at hok
      cases hok
  constructor
  · rintro ⟨r1, hr1, hr1ok⟩
    unfold convert_excel_to_zengin
    rw [hne]
    simp only [Bool.false_eq_true, if_false]
    have hrec : ¬ (convertLoop rc rn rows 0).1.isEmpty = true := by
      rw [List.isEmpty_iff, convertLoop_records_empty]
      intro hall
      have := hall r1 hr1
      rw [hr1ok] at this
      cases this
    rw [if_neg hrec]
    have herr : ¬ (convertLoop rc rn rows 0).2.2.isEmpty = true := by
      rw [List.isEmpty_iff, convertLoop_errors_eq]
      exact herr_ne
    rw [if_pos herr, convertLoop_errors_eq]
  · intro hall
    unfold convert_excel_to_zengin
    rw [hne]
    simp only [Bool.false_eq_true, if_false]
    have hrec : (convertLoop rc rn rows 0).1.isEmpty = true := by
      rw [List.isEmpty_iff, convertLoop_records_empty]
      exact hall
    rw [if_pos hrec]

theorem C3_invalid_rows_abort_witness :
    convert_excel_to_zengin [sampleRow2, badAmountRow] [] [] 10 12
      = .error (.conversionErrors
          ((failingRows [] [] [sampleRow2, badAmountRow] 0).take 10)) :=
  (C3_invalid_rows_abort [sampleRow2, badAmountRow] [] [] 10 12
    ⟨badAmountRow, by decide, by decide⟩).2.1 ⟨sampleRow2, by decide, by decide⟩

/-- C3 counterexample: a batch whose single row fails validation (negative
amount) yields the generic no-convertible-data error, which names no row
ordinal and no reason — the claim that every failing row is named with its
ordinal and reason is false as stated.  (The failing row list the claim
expects would have been `[(2, amount-not-positive)]`.) -/
theorem C3_counterexample :
    convert_excel_to_zengin [badAmountRow] [] [] 10 12
        = .error .noConvertibleData ∧
      (validate_customer_data badAmountRow).1 = false ∧
      failingRows [] [] [badAmountRow] 0
        = [(2, .validationError [VError.amountNotPositive])] := by
  refine ⟨by decide, by decide, by decide⟩

/-! ### Decimal fields of the trailer -/

/-- The numeric value of a zero-padded ASCII decimal byte string. -/
def decimalValue (bs : List Nat) : Nat :=
  bs.foldl (fun acc b => 10 * acc + (b - 0x30)) 0

theorem encodeStr_map_single (l : List Nat) (f : Nat → Nat) :
    encodeStr (l.map (fun d => JChar.single (f d))) = l.map f := by
  induction l with
  | nil => rfl
  | cons d rest ih => simp [encodeStr_cons, JChar.encode, ih]

theorem decVal_digits : ∀ (fuel n : Nat), n < fuel →
    decimalValue ((natDigitsAux fuel n).map (fun d => 0x30 + d)) = n := by
  intro fuel
  induction fuel with
  | zero => intro n h; omega
  | succ f ih =>
    intro n h
    unfold natDigitsAux
    by_cases h10 : n < 10
    · rw [if_pos h10]
      simp [decimalValue]
    · rw [if_neg h10]
      rw [List.map_append]
      unfold decimalValue
      rw [List.foldl_append]
      have hdiv : n / 10 < f := by
        have h1 : n / 10 < n := Nat.div_lt_self (by omega) (by omega)
        omega
      have := ih (n / 10) hdiv
      unfold decimalValue at this
      rw [this]
      simp only [List.map_cons, List.map_nil, List.foldl_cons, List.foldl_nil]
      omega

theorem decVal_zeros (j : Nat) (bs : List Nat) :
    decimalValue (List.replicate j 0x30 ++ bs) = decimalValue bs := by
  unfold decimalValue
  rw [List.foldl_append]
  congr 1
  induction j with
  | zero => rfl
  | succ k ih => simpa [List.replicate_succ] using ih

theorem natDigitsAux_length_le : ∀ (fuel n k : Nat), n < fuel → n < 10 ^ k → 1 ≤ k →
    (natDigitsAux fuel n).length ≤ k := by
  intro fuel
  induction fuel with
  | zero => intro n k h; omega
  | succ f ih =>
    intro n k h hk h1
    unfold natDigitsAux
    by_cases h10 : n < 10
    · rw [if_pos h10]
      simpa using h1
    · rw [if_neg h10]
      rw [List.length_append]
      have hk2 : 2 ≤ k := by
        by_contra hlt
        have : k = 1 := by omega
        subst this
        simp at hk
        omega
      have hdiv : n / 10 < f := by
        have h1 : n / 10 < n := Nat.div_lt_self (by omega) (by omega)
        omega
      have hdivk : n / 10 < 10 ^ (k - 1) := by
        have : n < 10 ^ k := hk
        have hpow : 10 ^ k = 10 ^ (k - 1) * 10 := by
          rw [← Nat.pow_succ]
          congr 1
          omega
        rw [hpow] at this
        omega
      have := ih (n / 10) (k - 1) hdiv hdivk (by omega)
      simp only [List.length_cons, List.length_nil]
      omega

/-- The right-aligned zero-fill branch of `_pad_string` in closed form. -/
theorem pad_string_right_zero (v : List JChar) (len : Nat) (hv : WFStr v)
    (hle : (encodeStr v).length ≤ len) :
    _pad_string v len strZero strRight
      = some (List.replicate (len - (encodeStr v).length) (JChar.single 0x30) ++ v) := by
  unfold _pad_string
  rw [if_neg (by omega)]
  dsimp only
  rw [if_pos rfl]
  have hflat : (List.replicate (len - (encodeStr v).length) (encodeStr strZero)).flatten
      = encodeStr (List.replicate (len - (encodeStr v).length) (JChar.single 0x30)) := by
    rw [encodeStr_replicate_single]
    have : encodeStr strZero = [0x30] := rfl
    rw [this, flatten_replicate_singleton]
  rw [hflat, ← encodeStr_append]
  exact decode_encode _ (fun c hc => (List.mem_append.1 hc).elim
    (fun hm => by rw [List.eq_of_mem_replicate hm]; exact Or.inl (by norm_num))
    (hv c))

theorem encodeStr_pyStrOfNat (n : Nat) :
    encodeStr (pyStrOfNat n) = (natToDigitList n).map (fun d => 0x30 + d) :=
  encodeStr_map_single _ _

theorem decimalValue_padded_nat (n len : Nat) (hlen : 1 ≤ len) (hbound : n < 10 ^ len) :
    ∃ cs, _pad_string (pyStrOfNat n) len strZero strRight = some cs ∧
      decimalValue (encodeStr cs) = n := by
  have hdig : (encodeStr (pyStrOfNat n)).length ≤ len := by
    rw [encodeStr_pyStrOfNat, List.length_map]
    exact natDigitsAux_length_le (n + 1) n len (by omega) hbound hlen
  refine ⟨_, pad_string_right_zero _ len (pyStrOfNat_wf n) hdig, ?_⟩
  rw [encodeStr_append, encodeStr_replicate_single, decVal_zeros, encodeStr_pyStrOfNat]
  exact decVal_digits (n + 1) n (by omega)

theorem orBodyUnexpected_ok {α : Type} {o : Option α} {a : α}
    (h : orBodyUnexpected o = Except.ok a) : o = some a := by
  cases o with
  | none => simp [orBodyUnexpected] at h
  | some x => simpa [orBodyUnexpected] using h

/-- A successful batch is header, the loop's data records, trailer, end —
with the trailer built from the data count and the accumulated total, and no
row having failed. -/
theorem convert_excel_ok_shape (rows : List Row) (rc rn : List JChar) (m d : Nat)
    (recs : List (List JChar))
    (hok : convert_excel_to_zengin rows rc rn m d = .ok recs) :
    ∃ header trailer endRec,
      recs = header :: (convertLoop rc rn rows 0).1 ++ [trailer, endRec] ∧
      create_header_record (convertLoop rc rn rows 0).1.length m d = some header ∧
      create_trailer_record (convertLoop rc rn rows 0).1.length
        (convertLoop rc rn rows 0).2.1 = some trailer ∧
      create_end_record ((convertLoop rc rn rows 0).1.length + 2) = some endRec ∧
      (convertLoop rc rn rows 0).2.2 = [] := by
  unfold convert_excel_to_zengin at hok
  split at hok
  · cases hok
  · dsimp only at hok
    split at hok
    · cases hok
    · split at hok
      · cases hok
      · rename_i hrecs herrs
        rcases bind_ok_elim hok with ⟨header, hheader, hok⟩
        rcases bind_ok_elim hok with ⟨trailer, htrailer, hok⟩
        rcases bind_ok_elim hok with ⟨endRec, hendRec, hok⟩
        have hrecs_eq : recs = header :: (convertLoop rc rn rows 0).1 ++ [trailer, endRec] := by
          have := Except.ok.inj hok
          rw [← this]
        refine ⟨header, trailer, endRec, hrecs_eq, orBodyUnexpected_ok hheader,
          orBodyUnexpected_ok htrailer, orBodyUnexpected_ok hendRec, ?_⟩
        rw [Decidable.not_not] at herrs
        exact List.isEmpty_iff.1 herrs

/-! ### Claim C2: trailer totals and the end record -/

/-- C2 (amended): in every batch assembled from well-formed valid rows, the
trailer's encoded 6-byte count field equals the number of data records
(exact whenever that count is below 10^6, the field's capacity) and its
encoded 12-byte total field equals the exact sum of the rows' parsed
amounts (exact whenever that non-negative sum is below 10^12).  The end
record, however, is the constant `"9"` + 119 spaces: it encodes no total at
all, and the count its constructor receives is Header+Data+Trailer, not
Header+Data+Trailer+End (see the counterexample). -/
theorem C2_trailer_totals (rows : List Row) (m d : Nat) (recs : List (List JChar))
    (hok : convert_excel_to_zengin rows [] [] m d = .ok recs)
    (hcount : rows.length < 10 ^ 6)
    (h0 : 0 ≤ (rows.map totalAmountContribution).sum)
    (htotal : (rows.map totalAmountContribution).sum < 10 ^ 12) :
    ∃ header dataRecs trailer endRec,
      recs = header :: dataRecs ++ [trailer, endRec] ∧
      dataRecs.length = rows.length ∧
      decimalValue (((encodeStr trailer).drop 1).take 6) = dataRecs.length ∧
      (decimalValue (((encodeStr trailer).drop 7).take 12) : Int)
        = (rows.map totalAmountContribution).sum ∧
      endRec = JChar.single 0x39 :: List.replicate 119 spaceJ := by
  obtain ⟨header, trailer, endRec, hrecs, hheader, htrailer, hendRec, herrs⟩ :=
    convert_excel_ok_shape rows [] [] m d recs hok
  have hallok : ∀ r ∈ rows, (convert_row_to_record r [] []).isOk = true := by
    rw [← failingRows_eq_nil [] [] rows 0, ← convertLoop_errors_eq]
    exact herrs
  obtain ⟨_, hlen, htot⟩ := convertLoop_all_ok [] [] rows 0 hallok
  obtain ⟨cs, ts, hcs, hts, hcs_len, hts_len, htr_enc⟩ :=
    create_trailer_shape _ _ trailer htrailer
  simp only [List.append_assoc] at htr_enc
  rw [hlen] at hcs
  rw [htot] at hts
  -- the count field
  obtain ⟨cs2, hcs2, hcs2_val⟩ := decimalValue_padded_nat rows.length 6 (by omega) hcount
  rw [hcs2] at hcs
  have hcs_eq : cs2 = cs := Option.some.inj hcs
  subst hcs_eq
  -- the total field
  have hint : pyStrOfInt ((rows.map totalAmountContribution).sum)
      = pyStrOfNat ((rows.map totalAmountContribution).sum).toNat := by
    unfold pyStrOfInt
    rw [if_neg (by omega)]
  rw [hint] at hts
  obtain ⟨ts2, hts2, hts2_val⟩ := decimalValue_padded_nat
    ((rows.map totalAmountContribution).sum).toNat 12 (by omega) (by omega)
  rw [hts2] at hts
  have hts_eq : ts2 = ts := Option.some.inj hts
  subst hts_eq
  refine ⟨header, (convertLoop [] [] rows 0).1, trailer, endRec, hrecs, hlen, ?_, ?_, ?_⟩
  · rw [htr_enc]
    rw [drop_append_chain [0x38] _ 1 0 1 rfl (by norm_num) (by norm_num), List.drop_zero]
    rw [take_append_len _ _ 6 hcs_len]
    rw [hcs2_val]
    exact hlen.symm
  · rw [htr_enc]
    rw [drop_append_chain [0x38] _ 7 6 1 rfl (by norm_num) (by norm_num)]
    rw [drop_append_chain (encodeStr cs2) _ 6 0 6 hcs_len (by norm_num) (by norm_num),
      List.drop_zero]
    rw [take_append_len _ _ 12 hts_len]
    rw [hts2_val]
    omega
  · rw [create_end_record_eval] at hendRec
    exact (Option.some.inj hendRec).symm

/-- C2 counterexample: the end record ignores its record-count argument — it
is the same constant for a 4-record and a 5-record batch, the single byte
`"9"` followed by 119 spaces, so it cannot encode the Header+Data+Trailer+End
count; and the spec scenario's 2-row batch indeed ends with that constant. -/
theorem C2_counterexample :
    create_end_record 4 = create_end_record 5 ∧
      create_end_record 5 = some (JChar.single 0x39 :: List.replicate 119 spaceJ) ∧
      (convert_excel_to_zengin [sampleRow1, sampleRow2] [] [] 10 12).map
          (fun recs => recs.getLast?)
        = .ok (some (JChar.single 0x39 :: List.replicate 119 spaceJ)) := by
  refine ⟨rfl, by decide, by decide⟩

theorem C2_trailer_totals_witness :
    Except.map (fun recs =>
        (recs.length,
         decimalValue (((encodeStr (recs.reverse.getD 1 [])).drop 1).take 6),
         decimalValue (((encodeStr (recs.reverse.getD 1 [])).drop 7).take 12),
         recs.reverse.getD 0 []))
      (convert_excel_to_zengin [sampleRow1, sampleRow2] [] [] 10 12)
      = .ok (5, 2, 6000, JChar.single 0x39 :: List.replicate 119 spaceJ) := by
  cases hh : convert_excel_to_zengin [sampleRow1, sampleRow2] [] [] 10 12 with
  | error e =>
    have hok : (convert_excel_to_zengin [sampleRow1, sampleRow2] [] [] 10 12).isOk = true := by
      decide
    rw [hh] at hok
    simp [Except.isOk, Except.toBool] at hok
  | ok recs =>
    obtain ⟨header, dataRecs, trailer, endRec, hrecs, hlen, hcnt, htot, hend⟩ :=
      C2_trailer_totals [sampleRow1, sampleRow2] 10 12 recs hh (by decide) (by decide)
        (by decide)
    have htotN : decimalValue (((encodeStr trailer).drop 7).take 12) = 6000 := by
      have hsum : ([sampleRow1, sampleRow2].map totalAmountContribution).sum = 6000 := by
        decide
      rw [hsum] at htot
      omega
    have hrev : recs.reverse = endRec :: trailer :: (dataRecs.reverse ++ [header]) := by
      rw [hrecs]
      simp
    simp only [Except.map, hrev, List.getD_cons_succ, List.getD_cons_zero]
    rw [hrecs]
    simp only [List.length_cons, List.length_append, hlen]
    rw [hcnt, hlen, htotN, hend]
    rfl

end Zengin
